import Mathlib

/-!
# Proof-of-work challenge primitive

A shallow embedding of `internal/pow/challenge.go`: the `Challenge` record, its HMAC-SHA256
signature (`NewChallenge`, `VerifySign`, `sig`, `buildHashingBytes`) and its SHA-256 proof of
work (`ComputeNonce`, `VerifyNonce`, `verifyNonce`, `target`).

The Go standard library pieces the package calls are embedded as executable functions:
`crypto/sha256` (FIPS 180-4), `crypto/hmac` (RFC 2104), `strconv.FormatInt` in base 10 and the
`math/big` operations `Bytes`, `SetBytes`, `Lsh`, `Int64`.

Conventions: a Go `error` result is an `Option Error` (`none` is `nil`); a method with a pointer
receiver that mutates the challenge returns the new challenge next to its result; `*big.Int` is
`Int`; `int64` fields are `Int` and the one place where a value is narrowed to 64 bits
(`big.Int.Int64`) is explicit.
-/

set_option maxRecDepth 1000000

namespace pow

/-- A Go `byte`. -/
abbrev Byte := Fin 256

/-- The byte with value `x mod 256`. -/
def byteOf (x : Nat) : Byte := ⟨x % 256, Nat.mod_lt x (by decide)⟩

/-! ## crypto/sha256 -/

namespace sha256

/-- Truncation to a 32-bit word. -/
def mask32 (x : Nat) : Nat := x % 4294967296

/-- Rotate a 32-bit word right by `n` bits. -/
def rotr (x n : Nat) : Nat := mask32 ((x >>> n) ||| (x <<< (32 - n)))

/-- The 64 round constants. -/
def K : List Nat := [
  0x428a2f98, 0x71374491, 0xb5c0fbcf, 0xe9b5dba5, 0x3956c25b, 0x59f111f1, 0x923f82a4, 0xab1c5ed5,
  0xd807aa98, 0x12835b01, 0x243185be, 0x550c7dc3, 0x72be5d74, 0x80deb1fe, 0x9bdc06a7, 0xc19bf174,
  0xe49b69c1, 0xefbe4786, 0x0fc19dc6, 0x240ca1cc, 0x2de92c6f, 0x4a7484aa, 0x5cb0a9dc, 0x76f988da,
  0x983e5152, 0xa831c66d, 0xb00327c8, 0xbf597fc7, 0xc6e00bf3, 0xd5a79147, 0x06ca6351, 0x14292967,
  0x27b70a85, 0x2e1b2138, 0x4d2c6dfc, 0x53380d13, 0x650a7354, 0x766a0abb, 0x81c2c92e, 0x92722c85,
  0xa2bfe8a1, 0xa81a664b, 0xc24b8b70, 0xc76c51a3, 0xd192e819, 0xd6990624, 0xf40e3585, 0x106aa070,
  0x19a4c116, 0x1e376c08, 0x2748774c, 0x34b0bcb5, 0x391c0cb3, 0x4ed8aa4a, 0x5b9cca4f, 0x682e6ff3,
  0x748f82ee, 0x78a5636f, 0x84c87814, 0x8cc70208, 0x90befffa, 0xa4506ceb, 0xbef9a3f7, 0xc67178f2]

/-- The initial hash value. -/
def init : List Nat :=
  [0x6a09e667, 0xbb67ae85, 0x3c6ef372, 0xa54ff53a, 0x510e527f, 0x9b05688c, 0x1f83d9ab, 0x5be0cd19]

/-- Working variables of the compression function together with a sliding window of the
sixteen most recent message-schedule words. -/
structure Work where
  a : Nat
  b : Nat
  c : Nat
  d : Nat
  e : Nat
  f : Nat
  g : Nat
  h : Nat
  w : List Nat

/-- One of the 64 rounds: consumes the oldest schedule word, extends the schedule by one. -/
def round (s : Work) (k : Nat) : Work :=
  let w0 := s.w.getD 0 0
  let w1 := s.w.getD 1 0
  let w14 := s.w.getD 14 0
  let t1 := mask32 (s.h + (rotr s.e 6 ^^^ rotr s.e 11 ^^^ rotr s.e 25)
    + ((s.e &&& s.f) ^^^ ((4294967295 - s.e) &&& s.g)) + k + w0)
  let t2 := mask32 ((rotr s.a 2 ^^^ rotr s.a 13 ^^^ rotr s.a 22)
    + ((s.a &&& s.b) ^^^ (s.a &&& s.c) ^^^ (s.b &&& s.c)))
  let wn := mask32 ((rotr w14 17 ^^^ rotr w14 19 ^^^ (w14 >>> 10)) + s.w.getD 9 0
    + (rotr w1 7 ^^^ rotr w1 18 ^^^ (w1 >>> 3)) + w0)
  { a := mask32 (t1 + t2), b := s.a, c := s.b, d := s.c, e := mask32 (s.d + t1), f := s.e,
    g := s.f, h := s.g, w := s.w.tail ++ [wn] }

/-- Big-endian value of a list of byte values. -/
def word (bs : List Nat) : Nat := bs.foldl (fun acc x => acc * 256 + x) 0

/-- The first `n` big-endian 32-bit words of a byte list. -/
def words : Nat → List Nat → List Nat
  | 0, _ => []
  | n + 1, bs => word (bs.take 4) :: words n (bs.drop 4)

/-- The compression function on one 64-byte block. -/
def compress (hs : List Nat) (block : List Nat) : List Nat :=
  let s0 : Work :=
    { a := hs.getD 0 0, b := hs.getD 1 0, c := hs.getD 2 0, d := hs.getD 3 0,
      e := hs.getD 4 0, f := hs.getD 5 0, g := hs.getD 6 0, h := hs.getD 7 0,
      w := words 16 block }
  let s := K.foldl round s0
  List.zipWith (fun x y => mask32 (x + y)) hs [s.a, s.b, s.c, s.d, s.e, s.f, s.g, s.h]

/-- The `n` low-order bytes of `x`, most significant first. -/
def beBytes : Nat → Nat → List Nat
  | 0, _ => []
  | n + 1, x => (x / 256 ^ n) % 256 :: beBytes n x

/-- Message padding: a `0x80` byte, zero bytes up to 56 mod 64, the bit length on 8 bytes. -/
def pad (msg : List Nat) : List Nat :=
  msg ++ 128 :: List.replicate ((119 - msg.length % 64) % 64) 0 ++ beBytes 8 (8 * msg.length)

/-- Fold the compression function over `n` consecutive 64-byte blocks. -/
def blocks : Nat → List Nat → List Nat → List Nat
  | 0, hs, _ => hs
  | n + 1, hs, bs => blocks n (compress hs (bs.take 64)) (bs.drop 64)

/-- The eight final hash words of a message given as byte values. -/
def digestWords (msg : List Nat) : List Nat :=
  let p := pad msg
  blocks (p.length / 64) init p

/-- The digest `sha256.New()` produces after `Write(msg)`: `Sum(nil)`, 32 bytes. -/
def Sum (msg : List Byte) : List Byte :=
  ((digestWords (msg.map Fin.val)).flatMap (beBytes 4)).map byteOf

end sha256

/-! ## crypto/hmac -/

namespace hmac

/-- The key block of `hmac.New(sha256.New, key)`: a key longer than the 64-byte block is
replaced by its digest, then the key is zero-padded to 64 bytes. -/
def keyBlock (key : List Byte) : List Byte :=
  let k := if key.length > 64 then sha256.Sum key else key
  k ++ List.replicate (64 - k.length) 0

/-- Xor every byte of the key block with the pad byte `p`. -/
def xorPad (p : Nat) (k : List Byte) : List Byte := k.map (fun b => byteOf (b.val ^^^ p))

/-- The tag `Sum(nil)` of `hmac.New(sha256.New, key)` after `Write(msg)`. -/
def Sum (key msg : List Byte) : List Byte :=
  let k := keyBlock key
  sha256.Sum (xorPad 0x5c k ++ sha256.Sum (xorPad 0x36 k ++ msg))

end hmac

/-! ## strconv and math/big -/

/-- Decimal digits of `n`, most significant first, pushed in front of `acc`; the first argument
bounds the number of digits produced. -/
def decimalDigits : Nat → Nat → List Byte → List Byte
  | 0, _, acc => acc
  | fuel + 1, n, acc =>
    if n < 10 then byteOf (48 + n) :: acc
    else decimalDigits fuel (n / 10) (byteOf (48 + n % 10) :: acc)

/-- Decimal ASCII digits of a natural number (`"0"` for zero). -/
def formatUint (n : Nat) : List Byte := decimalDigits (n + 1) n []

/-- Go `strconv.FormatInt(i, 10)` as bytes: a `-` for a negative value, then the digits of the
magnitude. -/
def FormatInt (i : Int) : List Byte :=
  if i < 0 then 45 :: formatUint i.natAbs else formatUint i.natAbs

/-- Base-256 digits of `n`, most significant first, pushed in front of `acc`. -/
def bytesAux : Nat → Nat → List Byte → List Byte
  | 0, _, acc => acc
  | fuel + 1, n, acc => if n = 0 then acc else bytesAux fuel (n / 256) (byteOf n :: acc)

/-- Go `(*big.Int).Bytes`: the big-endian bytes of the absolute value, without leading zero
bytes (empty for zero). -/
def Bytes (x : Int) : List Byte := bytesAux x.natAbs x.natAbs []

/-- Go `(*big.Int).SetBytes`: the big-endian unsigned integer the bytes spell. -/
def SetBytes (bs : List Byte) : Int := ((bs.foldl (fun acc b => acc * 256 + b.val) 0 : Nat) : Int)

/-- Go `(*big.Int).Lsh`. -/
def Lsh (x : Int) (n : Nat) : Int := x * 2 ^ n

/-- Reinterpretation of the low 64 bits of `v` as a two's complement `int64`. -/
def wrapInt64 (v : Int) : Int := (v + 9223372036854775808) % 18446744073709551616 - 9223372036854775808

/-- Go `(*big.Int).Int64`: the low 64 bits of the magnitude as an `int64`, negated for a
negative value. -/
def Int64 (x : Int) : Int :=
  let v := wrapInt64 ((x.natAbs % 18446744073709551616 : Nat) : Int)
  if x < 0 then wrapInt64 (-v) else v

/-! ## The challenge -/

/-- The errors of `context.Context.Err`. -/
inductive CtxError
  | Canceled
  | DeadlineExceeded
deriving DecidableEq, Repr

/-- The sentinel errors of the package. -/
inductive Sentinel
  | ErrInvalidSignature
  | ErrInvalidNonce
deriving DecidableEq, Repr

/-- The error values the package returns. -/
inductive Error
  /-- The value of `fmt.Errorf("%w: %x", ErrInvalidSignature, c.Signature)`. -/
  | invalidSignature (signature : List Byte)
  /-- The value of `fmt.Errorf("%w: %d", ErrInvalidNonce, c.Nonce)`. -/
  | invalidNonce (nonce : Int)
  /-- The value of `ctx.Err()`. -/
  | context (e : CtxError)
deriving DecidableEq, Repr

/-- Go `errors.Is(err, sentinel)` on the errors of the package. -/
def Error.Is : Error → Sentinel → Bool
  | .invalidSignature _, .ErrInvalidSignature => true
  | .invalidNonce _, .ErrInvalidNonce => true
  | _, _ => false

/-- The `Challenge` struct. `targetInt` is the unexported cache of the target, `none` for the
nil pointer. -/
structure Challenge where
  targetInt : Option Int
  Signature : List Byte
  Rand : List Byte
  UnixTimestamp : Int
  Nonce : Int
  Difficulty : Fin 256
deriving DecidableEq, Repr

/-- The constant `delimiter = ":"`. -/
def delimiter : List Byte := [58]

/-- Method `buildHashingBytes`. -/
def Challenge.buildHashingBytes (c : Challenge) : List Byte :=
  c.Rand ++ delimiter ++ FormatInt (c.Difficulty.val : Int) ++ delimiter
    ++ FormatInt c.UnixTimestamp

/-- Method `sig`. -/
def Challenge.sig (c : Challenge) (secret : List Byte) : List Byte :=
  hmac.Sum secret c.buildHashingBytes

/-- Function `NewChallenge`. -/
def NewChallenge (rand : List Byte) (difficulty : Fin 256) (unixTimestamp : Int)
    (secret : List Byte) : Challenge :=
  let c : Challenge :=
    { targetInt := none, Signature := [], Rand := rand, UnixTimestamp := unixTimestamp,
      Nonce := 0, Difficulty := difficulty }
  { c with Signature := c.sig secret }

/-- Method `VerifySign`. -/
def Challenge.VerifySign (c : Challenge) (secret : List Byte) : Option Error :=
  if ¬ (c.Signature = c.sig secret) then some (Error.invalidSignature c.Signature) else none

/-- Method `target`: computes the target on first use and caches it in `targetInt`. -/
def Challenge.target (c : Challenge) : Int × Challenge :=
  match c.targetInt with
  | none =>
    let t := Lsh 1 (255 - c.Difficulty.val)
    (t, { c with targetInt := some t })
  | some t => (t, c)

/-- Method `verifyNonce`, called with a freshly reset hash: hashes `Rand` and the bytes of the
nonce and compares the digest with the target. -/
def Challenge.verifyNonce (c : Challenge) (nonce : Int) : Bool × Challenge :=
  let hashInt := SetBytes (sha256.Sum (c.Rand ++ Bytes nonce))
  let r := c.target
  (decide (hashInt < r.1), r.2)

/-- Method `VerifyNonce`. -/
def Challenge.VerifyNonce (c : Challenge) : Option Error × Challenge :=
  let r := c.verifyNonce c.Nonce
  if !r.1 then (some (Error.invalidNonce c.Nonce), r.2) else (none, r.2)

/-- A context as the search loop sees it: `ctx i` is what the `i`-th evaluation of the `select`
statement (counting from zero) finds, `none` when `ctx.Done()` is not ready and `some e` when it
is ready and `ctx.Err()` is `e`. -/
abbrev Context := Nat → Option CtxError

/-- The state in which the `for` loop of `ComputeNonce` is left. -/
structure SearchResult where
  err : Option Error
  nonce : Int
  challenge : Challenge
deriving DecidableEq, Repr

/-- The `for` loop of `ComputeNonce` entered for the `i`-th time with the local `nonce`; the
first argument bounds the number of iterations and `none` means the bound was reached. -/
def Challenge.search (ctx : Context) : Nat → Nat → Challenge → Int → Option SearchResult
  | 0, _, _, _ => none
  | fuel + 1, i, c, nonce =>
    match ctx i with
    | some e => some { err := some (Error.context e), nonce := nonce, challenge := c }
    | none =>
      let r := c.verifyNonce nonce
      if r.1 then some { err := none, nonce := nonce, challenge := r.2 }
      else Challenge.search ctx fuel (i + 1) r.2 (nonce + 1)

/-- Method `ComputeNonce`, with a bound on the number of loop iterations; the deferred function
stores `nonce.Int64()` in `Nonce` when the loop is left. -/
def Challenge.ComputeNonce (ctx : Context) (fuel : Nat) (c : Challenge) :
    Option (Option Error × Challenge) :=
  if c.Difficulty = 0 then some (none, c)
  else
    match Challenge.search ctx fuel 0 c c.Nonce with
    | none => none
    | some r => some (r.err, { r.challenge with Nonce := Int64 r.nonce })

/-! ## Specification-side definitions -/

/-- Specification: the decimal digits of a natural number as ASCII bytes, most significant
first, `"0"` for zero (read off Mathlib's little-endian `Nat.digits`). -/
def decimalDigitsSpec (n : Nat) : List Byte :=
  if n = 0 then [48] else (Nat.digits 10 n).reverse.map (fun d => byteOf (48 + d))

/-- Specification: `decimal_ascii`, the decimal ASCII text of an integer, with a leading `-`
(0x2D) for a negative one. -/
def decimalAscii (i : Int) : List Byte :=
  (if i < 0 then [45] else []) ++ decimalDigitsSpec i.natAbs

/-- Specification: the signed message `rand || 0x3A || decimal_ascii(difficulty) || 0x3A ||
decimal_ascii(unix)`. -/
def signedMessage (rand : List Byte) (difficulty : Fin 256) (unix : Int) : List Byte :=
  rand ++ [58] ++ decimalAscii (difficulty.val : Int) ++ [58] ++ decimalAscii unix

/-- The number a list of ASCII digits spells. -/
def digitVal (bs : List Byte) : Nat := bs.foldl (fun acc b => acc * 10 + (b.val - 48)) 0

/-- Whether a value is representable as an `int64`. -/
def fitsInt64 (x : Int) : Prop := -9223372036854775808 ≤ x ∧ x ≤ 9223372036854775807

instance (x : Int) : Decidable (fitsInt64 x) :=
  inferInstanceAs (Decidable (-9223372036854775808 ≤ x ∧ x ≤ 9223372036854775807))

/-- Specification: `minimal_big_endian_bytes`, the big-endian bytes of a natural number without
leading zero bytes, the empty string for zero (read off Mathlib's `Nat.digits`). -/
def minimalBigEndianBytes (n : Nat) : List Byte :=
  (Nat.digits 256 n).reverse.map byteOf

/-- Specification: a byte string read as an unsigned big-endian integer. -/
def bigEndianValue (bs : List Byte) : Nat := Nat.ofDigits 256 (bs.reverse.map Fin.val)

/-- Specification: the proof-of-work hash `SHA256(rand || minimal_big_endian_bytes(|nonce|))`
read as an unsigned 256-bit big-endian integer. -/
def powHash (rand : List Byte) (nonce : Int) : Nat :=
  bigEndianValue (sha256.Sum (rand ++ minimalBigEndianBytes nonce.natAbs))

/-! ## Inputs of the package tests and contexts -/

/-- Test input `rand = []byte{0x01, 0x02, 0x03, 0x04}`. -/
def testRand : List Byte := [1, 2, 3, 4]

/-- Test input `validSecret = []byte("valid_secret")`. -/
def validSecret : List Byte := [118, 97, 108, 105, 100, 95, 115, 101, 99, 114, 101, 116]

/-- Test input `invalidSecret = []byte("test_secret")`. -/
def invalidSecret : List Byte := [116, 101, 115, 116, 95, 115, 101, 99, 114, 101, 116]

/-- The context `context.Background()`, which is never done. -/
def background : Context := fun _ => none

/-- A context found not done by the first `k` evaluations of the `select` statement and done,
with error `e`, from then on. -/
def doneFrom (k : Nat) (e : CtxError) : Context := fun i => if i < k then none else some e

/-- A challenge as the struct literal `&Challenge{Rand: rand, Nonce: nonce, Difficulty: d}`. -/
def literal (rand : List Byte) (nonce : Int) (difficulty : Fin 256) : Challenge :=
  { targetInt := none, Signature := [], Rand := rand, UnixTimestamp := 0, Nonce := nonce,
    Difficulty := difficulty }

/-- The text `err.Error()` of the ASCII string `s`, as bytes. -/
def ascii (s : String) : List Byte := s.toList.map (fun ch => byteOf ch.toNat)

/-- The lower-case hexadecimal digit of a value below 16. -/
def hexDigit (n : Nat) : Byte := if n < 10 then byteOf (48 + n) else byteOf (87 + n)

/-- The verb `%x` applied to a byte slice: two lower-case hexadecimal digits per byte. -/
def hex (bs : List Byte) : List Byte :=
  bs.flatMap (fun b => [hexDigit (b.val / 16), hexDigit (b.val % 16)])

/-- Method `Error()` of the errors of the package. -/
def Error.Error : Error → List Byte
  | .invalidSignature signature => ascii "invalid signature: " ++ hex signature
  | .invalidNonce nonce => ascii "invalid nonce: " ++ FormatInt nonce
  | .context .Canceled => ascii "context canceled"
  | .context .DeadlineExceeded => ascii "context deadline exceeded"

end pow

/-!
# Wire codec

A shallow embedding of `internal/proto/proto.go` and `internal/proto/errors.go`. A writer is
what its `Write` method answers; a reader is a state machine whose `Read` method is told the
length of the buffer it is given; the functions that write return the list of buffers handed
to `Write` next to their result. Errors of readers and writers are values from outside the
package (`IOError`).
-/

namespace proto

open pow (Byte byteOf)

/-- Equality of Go results `(value, error)` is decidable. -/
instance instDecidableEqExcept {ε α : Type} [DecidableEq ε] [DecidableEq α] :
    DecidableEq (Except ε α)
  | Except.ok a, Except.ok b =>
    if h : a = b then isTrue (by rw [h]) else isFalse (fun h' => h (Except.ok.inj h'))
  | Except.error a, Except.error b =>
    if h : a = b then isTrue (by rw [h]) else isFalse (fun h' => h (Except.error.inj h'))
  | Except.ok _, Except.error _ => isFalse (fun h => by cases h)
  | Except.error _, Except.ok _ => isFalse (fun h => by cases h)

/-- A Go `[]byte` value that may be nil: `none` is the nil slice. -/
abbrev ByteSlice := Option (List Byte)

/-- The bytes of a slice. -/
def data : ByteSlice → List Byte
  | none => []
  | some l => l

/-- Go `len`. -/
def len (b : ByteSlice) : Nat := (data b).length

abbrev RequestType := Byte

abbrev StatusType := Byte

abbrev ResourceIDType := Fin 65536

def RequestTypeExit : RequestType := 0

def RequestTypeChallenge : RequestType := 1

def RequestTypeResource : RequestType := 2

def StatusOK : StatusType := 0

def StatusErr : StatusType := 1

def actionBytesCount : Nat := 1

def statusBytesCount : Nat := 1

def resourceIDBytesCount : Nat := 2

def contentLengthBytesCount : Nat := 4

/-- The constant `maxPayloadLength = math.MaxUint32`. -/
def maxPayloadLength : Nat := 4294967295

/-- The `Request` struct (field `Type` is spelled `Typ`). -/
structure Request where
  Payload : ByteSlice
  ResourceID : ResourceIDType
  Typ : RequestType
deriving DecidableEq, Repr

/-- The `Response` struct. -/
structure Response where
  Payload : ByteSlice
  Status : StatusType
deriving DecidableEq, Repr

def MakeResponse (status : StatusType) (payload : ByteSlice) : Response :=
  { Status := status, Payload := payload }

/-- Function `ErrorResponse`, given the text `err.Error()`. -/
def ErrorResponse (errText : List Byte) : Response := MakeResponse StatusErr (some errText)

def OkResponse (payload : ByteSlice) : Response := MakeResponse StatusOK payload

/-- The error values of the operating system and the network that the package looks for, and
any other one. -/
inductive IOKind
  /-- Value `syscall.EPIPE`. -/
  | EPIPE
  /-- Value `os.ErrDeadlineExceeded`. -/
  | ErrDeadlineExceeded
  /-- Value `net.ErrClosed`. -/
  | ErrClosed
  /-- Value `io.EOF`. -/
  | EOF
  /-- Value `syscall.ECONNRESET`. -/
  | ECONNRESET
  | other (id : Nat)
deriving DecidableEq, Repr

/-- The sentinel errors of `errors.go`. -/
inductive Sentinel
  | ErrConnectionClosed
  | ErrDeadlineExceeded
  | ErrInvalidPayloadLength
  | ErrZeroBytesWritten
  | ErrReadAction
  | ErrReadStatus
  | ErrReadPayload
  | ErrReadResourceID
  | ErrInvalidBytesCount
deriving DecidableEq, Repr

/-- An error returned by a reader or a writer, which may be any Go error: one of the values
above, a sentinel of this package (a reader may itself be built on this codec), an error that
wraps another one (as `*net.OpError`, `*os.SyscallError` and `fmt.Errorf` with `%w` do), or an
error that wraps several (`errors.Join`), which `errors.Is` matches against each of them. -/
inductive IOError
  | base (k : IOKind)
  | sentinel (s : Sentinel)
  | wrap (e : IOError)
  | join (a b : IOError)
deriving DecidableEq, Repr

/-- Go `errors.Is(err, k)` on an error of a reader or a writer, for a value `k` of the operating
system or the network. -/
def IOError.Is : IOError → IOKind → Bool
  | .base k, t => decide (k = t)
  | .sentinel _, _ => false
  | .wrap e, t => e.Is t
  | .join a b, t => a.Is t || b.Is t

/-- Go `errors.Is(err, s)` on an error of a reader or a writer, for a sentinel `s` of this
package. -/
def IOError.IsSentinel : IOError → Sentinel → Bool
  | .base _, _ => false
  | .sentinel s, t => decide (s = t)
  | .wrap e, t => e.IsSentinel t
  | .join a b, t => a.IsSentinel t || b.IsSentinel t

/-- The error values the package returns. -/
inductive Error
  | sentinel (s : Sentinel)
  /-- An error of the reader or the writer, returned as it is. -/
  | external (e : IOError)
  /-- The value of `fmt.Errorf("%w, max length %d: %d", ErrInvalidPayloadLength, ...)`. -/
  | invalidPayloadLength (length : Nat)
  /-- The value of `fmt.Errorf("%w: %d", ErrInvalidBytesCount, readCount)`. -/
  | invalidBytesCount (readCount : Int)
  /-- The value of `fmt.Errorf("...: %w", e)`. -/
  | wrap (e : Error)
  /-- The value of `fmt.Errorf("%w: %w", a, b)`. -/
  | wrap2 (a b : Error)
deriving DecidableEq, Repr

/-- Go `errors.Is(err, s)` for a sentinel of the package. -/
def Error.Is : Error → Sentinel → Bool
  | .sentinel s, t => decide (s = t)
  | .external e, t => e.IsSentinel t
  | .invalidPayloadLength _, t => decide (t = Sentinel.ErrInvalidPayloadLength)
  | .invalidBytesCount _, t => decide (t = Sentinel.ErrInvalidBytesCount)
  | .wrap e, t => e.Is t
  | .wrap2 a b, t => a.Is t || b.Is t

def wrapWriteErr (err : IOError) : Error :=
  if err.Is IOKind.EPIPE then Error.wrap2 (Error.sentinel Sentinel.ErrConnectionClosed)
    (Error.external err)
  else Error.external err

def wrapReadErr (err : IOError) : Error :=
  if err.Is IOKind.ErrDeadlineExceeded then
    Error.wrap2 (Error.sentinel Sentinel.ErrDeadlineExceeded) (Error.external err)
  else if err.Is IOKind.ErrClosed || err.Is IOKind.EOF || err.Is IOKind.ECONNRESET then
    Error.wrap2 (Error.sentinel Sentinel.ErrConnectionClosed) (Error.external err)
  else Error.external err

/-- An `io.Writer`: what `Write(p)` returns. -/
abbrev Writer := List Byte → Int × Option IOError

/-- The buffers handed to `Write`, in order, and the returned error. -/
structure WriteResult where
  calls : List (List Byte)
  err : Option Error
deriving DecidableEq, Repr

def writeAndWrapErr (writer : Writer) (p : List Byte) : WriteResult :=
  let r := writer p
  match r.2 with
  | some err => { calls := [p], err := some (wrapWriteErr err) }
  | none =>
    if r.1 = 0 then { calls := [p], err := some (Error.sentinel Sentinel.ErrZeroBytesWritten) }
    else { calls := [p], err := none }

/-- Go `binary.LittleEndian.PutUint16` into a fresh 2-byte buffer. -/
def PutUint16 (v : Nat) : List Byte := [byteOf v, byteOf (v / 256)]

/-- Go `binary.LittleEndian.PutUint32` into a fresh 4-byte buffer. -/
def PutUint32 (v : Nat) : List Byte :=
  [byteOf v, byteOf (v / 256), byteOf (v / 65536), byteOf (v / 16777216)]

/-- Go `binary.LittleEndian.Uint16`. -/
def Uint16 (b : List Byte) : Nat := (b.getD 0 0).val + 256 * (b.getD 1 0).val

/-- Go `binary.LittleEndian.Uint32`. -/
def Uint32 (b : List Byte) : Nat :=
  (b.getD 0 0).val + 256 * (b.getD 1 0).val + 65536 * (b.getD 2 0).val
    + 16777216 * (b.getD 3 0).val

def WriteRequest (writer : Writer) (req : Request) : WriteResult :=
  let length := len req.Payload
  if length > maxPayloadLength then
    { calls := [], err := some (Error.invalidPayloadLength length) }
  else
    let resourceIDBytes := PutUint16 req.ResourceID.val
    let lengthBytes := PutUint32 (length % 4294967296)
    writeAndWrapErr writer ([req.Typ] ++ resourceIDBytes ++ lengthBytes ++ data req.Payload)

def WriteResponse (writer : Writer) (res : Response) : WriteResult :=
  let length := len res.Payload
  if length > maxPayloadLength then
    { calls := [], err := some (Error.invalidPayloadLength length) }
  else
    let lengthBytes := PutUint32 (length % 4294967296)
    writeAndWrapErr writer ([res.Status] ++ lengthBytes ++ data res.Payload)

/-- What one `Read(p)` call does: the bytes it stores at the start of `p`, the count and the
error it returns. -/
structure ReadOutcome where
  written : List Byte
  n : Int
  err : Option IOError
deriving DecidableEq, Repr

/-- An `io.Reader` with state `σ`: `Read s k` is the call `Read(p)` with `len(p) = k` in state
`s`. -/
structure Reader (σ : Type) where
  Read : σ → Nat → ReadOutcome × σ

/-- The buffer `make([]byte, needRead)` after a `Read` call stored `written` in it. -/
def fill (needRead : Nat) (written : List Byte) : List Byte :=
  (written ++ List.replicate needRead 0).take needRead

def readBytes {σ : Type} (reader : Reader σ) (s : σ) (needRead : Nat) :
    Except Error (List Byte) × σ :=
  let r := reader.Read s needRead
  match r.1.err with
  | some err => (Except.error (wrapReadErr err), r.2)
  | none =>
    if r.1.n ≠ (needRead : Int) then (Except.error (Error.invalidBytesCount r.1.n), r.2)
    else (Except.ok (fill needRead r.1.written), r.2)

def readResourceID {σ : Type} (reader : Reader σ) (s : σ) : Except Error Nat × σ :=
  match readBytes reader s resourceIDBytesCount with
  | (Except.error err, s') => (Except.error (Error.wrap err), s')
  | (Except.ok resourceIDBytes, s') => (Except.ok (Uint16 resourceIDBytes), s')

def readPayload {σ : Type} (reader : Reader σ) (s : σ) : Except Error ByteSlice × σ :=
  match readBytes reader s contentLengthBytesCount with
  | (Except.error err, s') => (Except.error (Error.wrap err), s')
  | (Except.ok contentLengthBytes, s') =>
    let contentLength := Uint32 contentLengthBytes
    if contentLength > 0 then
      match readBytes reader s' contentLength with
      | (Except.error err, s'') => (Except.error (Error.wrap err), s'')
      | (Except.ok payload, s'') => (Except.ok (some payload), s'')
    else (Except.ok none, s')

def ReadRequest {σ : Type} (reader : Reader σ) (s : σ) : Except Error Request × σ :=
  match readBytes reader s actionBytesCount with
  | (Except.error err, s1) =>
    (Except.error (Error.wrap2 (Error.sentinel Sentinel.ErrReadAction) err), s1)
  | (Except.ok action, s1) =>
    match readResourceID reader s1 with
    | (Except.error err, s2) =>
      (Except.error (Error.wrap2 (Error.sentinel Sentinel.ErrReadResourceID) err), s2)
    | (Except.ok resourceID, s2) =>
      match readPayload reader s2 with
      | (Except.error err, s3) =>
        (Except.error (Error.wrap2 (Error.sentinel Sentinel.ErrReadPayload) err), s3)
      | (Except.ok payload, s3) =>
        (Except.ok { Typ := action.getD 0 0, ResourceID := Fin.ofNat resourceID,
                     Payload := payload }, s3)

def ReadResponse {σ : Type} (reader : Reader σ) (s : σ) : Except Error Response × σ :=
  match readBytes reader s statusBytesCount with
  | (Except.error err, s1) =>
    (Except.error (Error.wrap2 (Error.sentinel Sentinel.ErrReadStatus) err), s1)
  | (Except.ok status, s1) =>
    match readPayload reader s1 with
    | (Except.error err, s2) =>
      (Except.error (Error.wrap2 (Error.sentinel Sentinel.ErrReadPayload) err), s2)
    | (Except.ok payload, s2) =>
      (Except.ok { Status := status.getD 0 0, Payload := payload }, s2)

/-- Go `bytes.NewReader(b)`: the state is the unread rest of `b`; `Read` copies as many bytes
as fit, and returns `io.EOF` once nothing is left. -/
def bytesReader : Reader (List Byte) :=
  { Read := fun s k =>
      if s = [] then ({ written := [], n := 0, err := some (IOError.base IOKind.EOF) }, s)
      else ({ written := s.take k, n := ((s.take k).length : Int), err := none }, s.drop k) }

/-- Specification: the `k` low-order bytes of `v`, least significant first. -/
def littleEndian (k v : Nat) : List Byte := (List.range k).map (fun i => byteOf (v / 256 ^ i))

/-- Specification: the request frame `[type:1][resource_id:2][len:4][payload:len]`. -/
def requestFrame (req : Request) : List Byte :=
  [req.Typ] ++ littleEndian 2 req.ResourceID.val ++ littleEndian 4 (len req.Payload)
    ++ data req.Payload

/-- Specification: the response frame `[status:1][len:4][payload:len]`. -/
def responseFrame (res : Response) : List Byte :=
  [res.Status] ++ littleEndian 4 (len res.Payload) ++ data res.Payload

/-- A reader that delivers each requested field in full: as long as `rest s` holds at least
the `k > 0` bytes asked for, `Read` stores the next `k` bytes, returns `(k, nil)` and leaves
the bytes after them. -/
def DeliversInFull {σ : Type} (reader : Reader σ) (rest : σ → List Byte) : Prop :=
  ∀ (s : σ) (k : Nat), 0 < k → k ≤ (rest s).length →
    (reader.Read s k).1 = { written := (rest s).take k, n := (k : Int), err := none }
      ∧ rest (reader.Read s k).2 = (rest s).drop k

/-- Specification: how the error of `WriteRequest` / `WriteResponse` follows from what the one
`Write` call returned. -/
def WriteContract (answer : Int × Option IOError) (result : Option Error) : Prop :=
  (∀ err, answer.2 = some err → err.Is IOKind.EPIPE = true →
      ∃ e, result = some e ∧ e.Is Sentinel.ErrConnectionClosed = true)
    ∧ (∀ err, answer.2 = some err → err.Is IOKind.EPIPE = false →
      result = some (Error.external err))
    ∧ (answer.2 = none → answer.1 = 0 →
      result = some (Error.sentinel Sentinel.ErrZeroBytesWritten))
    ∧ (answer.2 = none → 1 ≤ answer.1 → result = none)

/-- A `Read` call that does not deliver `needRead` bytes without error. -/
def Failed (o : ReadOutcome) (needRead : Nat) : Prop := o.err ≠ none ∨ o.n ≠ (needRead : Int)

/-- Specification: the sentinels of the package that the error `e`, reported for a failed
`Read` call with outcome `o` on the field with sentinel `field`, matches under `errors.Is`.
It matches its field, and: `ErrInvalidBytesCount` for a wrong count without error;
`ErrDeadlineExceeded` for a deadline-exceeded error; `ErrConnectionClosed` for an EOF,
use-of-closed-connection or connection-reset error that is not a deadline-exceeded error;
besides these, for a read error, only the sentinels that the read error itself matches. -/
def ReadContract (o : ReadOutcome) (needRead : Nat) (field : Sentinel) (e : Error) : Prop :=
  (o.err = none → o.n ≠ (needRead : Int) →
      ∀ t, e.Is t = true ↔ (t = field ∨ t = Sentinel.ErrInvalidBytesCount))
    ∧ (∀ x, o.err = some x → x.Is IOKind.ErrDeadlineExceeded = true →
      ∀ t, e.Is t = true
        ↔ (t = field ∨ t = Sentinel.ErrDeadlineExceeded ∨ x.IsSentinel t = true))
    ∧ (∀ x, o.err = some x → x.Is IOKind.ErrDeadlineExceeded = false →
      (x.Is IOKind.ErrClosed = true ∨ x.Is IOKind.EOF = true ∨ x.Is IOKind.ECONNRESET = true) →
      ∀ t, e.Is t = true
        ↔ (t = field ∨ t = Sentinel.ErrConnectionClosed ∨ x.IsSentinel t = true))
    ∧ (∀ x, o.err = some x → x.Is IOKind.ErrDeadlineExceeded = false →
      x.Is IOKind.ErrClosed = false → x.Is IOKind.EOF = false →
      x.Is IOKind.ECONNRESET = false →
      ∀ t, e.Is t = true ↔ (t = field ∨ x.IsSentinel t = true))

/-- A reader that answers its calls from a script, in order (as the mock of the tests does),
and `(0, io.EOF)` once the script is used up. -/
def scripted : Reader (List ReadOutcome) :=
  { Read := fun s _ =>
      match s with
      | [] => ({ written := [], n := 0, err := some (IOError.base IOKind.EOF) }, [])
      | o :: rest => (o, rest) }

/-- A reader error that is both a deadline-exceeded error and `io.EOF`:
`errors.Join(os.ErrDeadlineExceeded, io.EOF)`. -/
def deadlineAndEOF : IOError :=
  IOError.join (IOError.base IOKind.ErrDeadlineExceeded) (IOError.base IOKind.EOF)

/-- A slice as it is read back: an empty one becomes the nil slice. -/
def readBack (b : ByteSlice) : ByteSlice := if len b = 0 then none else b

/-- Test input `payload = []byte("some payload")`. -/
def somePayload : List Byte := pow.ascii "some payload"

end proto

/-!
# Connection engine

A shallow embedding of the request handlers of `internal/server/server.go`. The JSON codec of
`encoding/json` is a parameter; the `bigcache` cache is the list of the keys it holds; the
clock is the instant `time.Now()` returns, in nanoseconds since the Unix epoch; a
`time.Duration` is an `int64` of nanoseconds.
-/

namespace server

open pow (Byte Challenge Context)
open proto (Request Response ResourceIDType)

/-- The type `Handler`, `func(context.Context) ([]byte, error)`; an error is the text of its
`Error()`. -/
abbrev Handler := Context → Except (List Byte) proto.ByteSlice

/-- The keys a `bigcache.BigCache` holds. -/
abbrev Cache := List (List Byte)

/-- Whether `cache.Get(key)` finds an entry (it returns `ErrEntryNotFound` otherwise). -/
def Cache.Get (cache : Cache) (key : List Byte) : Bool := decide (key ∈ cache)

/-- The cache after `cache.Delete(key)`. -/
def Cache.Delete (cache : Cache) (key : List Byte) : Cache := cache.filter (fun k => k ≠ key)

/-- The cache after `cache.Set(key, nil)`. -/
def Cache.Set (cache : Cache) (key : List Byte) : Cache := key :: cache

/-- The functions of `encoding/json` on challenges: `Marshal` and `Unmarshal` into an empty
`pow.Challenge` (`none` when it returns an error). -/
structure Codec where
  Marshal : Challenge → List Byte
  Unmarshal : List Byte → Option Challenge

/-- The call `json.Unmarshal(b, challenge)` on `challenge := &pow.Challenge{}`: the exported
fields are those decoded, the unexported `targetInt` stays nil. -/
def Codec.decode (codec : Codec) (b : List Byte) : Option Challenge :=
  (codec.Unmarshal b).map (fun parsed => { parsed with targetInt := none })

/-- The `Server` struct, without its logger and wait group. -/
structure Server where
  handlers : ResourceIDType → Option Handler
  cache : Option Cache
  secret : List Byte
  readTimeout : Int
  writeTimeout : Int
  challengeTimeout : Int
  challengeRandBytesCount : Int
  powDifficulty : Fin 256

def errInternalServerError : List Byte := pow.ascii "internal server error"

def errChallengeWasExpired : List Byte := pow.ascii "challenge was expired"

def errChallengeNotFound : List Byte := pow.ascii "challenge not found"

def errUndefinedRequestType : List Byte := pow.ascii "undefined request type"

def errHandlerNotFound : List Byte := pow.ascii "handler not found"

/-- Go `time.Time.Unix` of an instant given in nanoseconds: whole seconds, rounded down. -/
def Unix (instant : Int) : Int := instant / 1000000000

/-- Go unary minus on a `time.Duration`, which is an `int64` of nanoseconds: the result wraps,
`-math.MinInt64` being `math.MinInt64`. -/
def negDuration (d : Int) : Int := pow.wrapInt64 (-d)

/-- Go `time.Time.Add` on a clock instant: the instant `d` nanoseconds later. (The seconds of
a `time.Time` are an `int64` of their own, so no instant of the clock plus a `Duration` leaves
the range.) -/
def Time.Add (t d : Int) : Int := t + d

/-- The errors `handleResourceRequest` returns instead of a response. -/
inductive InternalError
  /-- The value of `fmt.Errorf("unmarshal challenge response: %w", err)`. -/
  | unmarshal
  /-- The value of `fmt.Errorf("handler not implemented Handler type: %T", value)`. -/
  | handlerType
deriving DecidableEq, Repr

/-- What a call of `handleResourceRequest` leaves behind: its results, the cache, and whether
it called a handler. -/
structure ResourceResult where
  response : Except InternalError Response
  cache : Option Cache
  invoked : Bool

/-- Method `handleResourceRequest`; `now` is what `time.Now()` returns when the freshness check
is reached, the check being `challenge.UnixTimestamp <
time.Now().Add(-s.challengeTimeout).Unix()`. A value loaded from `handlers` is always a
`Handler`, the map being written by `RegisterHandler` only. -/
def Server.handleResourceRequest (codec : Codec) (s : Server) (now : Int) (ctx : Context)
    (request : Request) : ResourceResult :=
  match codec.decode (proto.data request.Payload) with
  | none => { response := Except.error InternalError.unmarshal, cache := s.cache,
              invoked := false }
  | some challenge =>
    let found :=
      match s.cache with
      | some cache => cache.Get challenge.Rand
      | none => true
    if found = false then
      { response := Except.ok (proto.ErrorResponse errChallengeNotFound), cache := s.cache,
        invoked := false }
    else
      let cache := s.cache.map (fun cache => cache.Delete challenge.Rand)
      match challenge.VerifySign s.secret with
      | some err =>
        { response := Except.ok (proto.ErrorResponse (pow.ascii "invalid sign: " ++ err.Error)),
          cache := cache, invoked := false }
      | none =>
        if challenge.UnixTimestamp < Unix (Time.Add now (negDuration s.challengeTimeout)) then
          { response := Except.ok (proto.ErrorResponse errChallengeWasExpired), cache := cache,
            invoked := false }
        else
          match challenge.VerifyNonce.1 with
          | some err =>
            { response :=
                Except.ok (proto.ErrorResponse (pow.ascii "invalid nonce: " ++ err.Error)),
              cache := cache, invoked := false }
          | none =>
            match s.handlers request.ResourceID with
            | none =>
              { response := Except.ok (proto.ErrorResponse errHandlerNotFound), cache := cache,
                invoked := false }
            | some handler =>
              match handler ctx with
              | Except.error err =>
                { response := Except.ok (proto.ErrorResponse err), cache := cache,
                  invoked := true }
              | Except.ok data =>
                { response := Except.ok (proto.OkResponse data), cache := cache,
                  invoked := true }

/-- A call of `handleResourceRequest` answered `challenge not found` by the server itself (no
handler was called). -/
def ResourceResult.answeredNotFound (r : ResourceResult) : Prop :=
  r.invoked = false ∧ r.response = Except.ok (proto.ErrorResponse errChallengeNotFound)

/-- A call of `handleResourceRequest` answered `challenge was expired` by the server itself (no
handler was called). -/
def ResourceResult.answeredExpired (r : ResourceResult) : Prop :=
  r.invoked = false ∧ r.response = Except.ok (proto.ErrorResponse errChallengeWasExpired)

/-- The deadlines of a `net.Conn`, as instants in nanoseconds (`none` when not set). -/
structure Conn where
  readDeadline : Option Int
  writeDeadline : Option Int
deriving DecidableEq, Repr

/-- Method `SetReadDeadline` of `net.Conn`. -/
def Conn.SetReadDeadline (conn : Conn) (t : Int) : Conn := { conn with readDeadline := some t }

/-- Method `SetWriteDeadline` of `net.Conn`. -/
def Conn.SetWriteDeadline (conn : Conn) (t : Int) : Conn :=
  { conn with writeDeadline := some t }

/-- Method `setReadDeadline`; `now` is what `time.Now()` returns. -/
def Server.setReadDeadline (s : Server) (now : Int) (conn : Conn) : Conn :=
  if s.readTimeout > 0 then conn.SetReadDeadline (now + s.readTimeout) else conn

/-- Method `setWriteDeadline`; `now` is what `time.Now()` returns. -/
def Server.setWriteDeadline (s : Server) (now : Int) (conn : Conn) : Conn :=
  if s.writeTimeout > 0 then conn.SetReadDeadline (now + s.writeTimeout) else conn

/-- Method `writeResponse`: the connection as `proto.WriteResponse` finds it, and what that
call does with the connection as its writer. -/
def Server.writeResponse (s : Server) (now : Int) (writer : proto.Writer) (conn : Conn)
    (res : Response) : Conn × proto.WriteResult :=
  (s.setWriteDeadline now conn, proto.WriteResponse writer res)

/-- The errors `handleChallengeRequest` returns instead of a response. -/
inductive ChallengeError
  /-- The value of `fmt.Errorf("read random bytes: %w", err)`. -/
  | readRandom
  /-- The value of `fmt.Errorf("cache set: %w", err)`. -/
  | cacheSet
deriving DecidableEq, Repr

/-- What a call of `handleChallengeRequest` leaves behind: its results and the cache. -/
structure ChallengeResult where
  response : Except ChallengeError Response
  cache : Option Cache

/-- Method `handleChallengeRequest`. `random` is what `rand.Read` stores in the buffer (`none`
when it returns an error), `now` what `time.Now()` returns, `setOk` whether `cache.Set`
returns nil. The result is `none` when `make` panics on a negative length. -/
def Server.handleChallengeRequest (codec : Codec) (s : Server) (random : Option (List Byte))
    (now : Int) (setOk : Bool) : Option ChallengeResult :=
  if s.challengeRandBytesCount < 0 then none
  else
    match random with
    | none => some { response := Except.error ChallengeError.readRandom, cache := s.cache }
    | some written =>
      let randBytes := proto.fill s.challengeRandBytesCount.toNat written
      let challenge := pow.NewChallenge randBytes s.powDifficulty (Unix now) s.secret
      match s.cache with
      | some cache =>
        if setOk = false then
          some { response := Except.error ChallengeError.cacheSet, cache := s.cache }
        else
          some { response := Except.ok (proto.OkResponse (some (codec.Marshal challenge))),
                 cache := some (cache.Set randBytes) }
      | none =>
        some { response := Except.ok (proto.OkResponse (some (codec.Marshal challenge))),
               cache := none }

/-- An argument of the variadic `RegisterHandlers(resourcesAndFuncs ...interface{})`, by its
dynamic type. -/
inductive Arg
  /-- A value of type `proto.ResourceIDType`. -/
  | resourceID (id : ResourceIDType)
  /-- A value of the unnamed type `func(context.Context) ([]byte, error)`: a function or method
  value or a function literal of that signature, as `cmd/server/main.go` passes. -/
  | func (h : Handler)
  /-- A value of the defined type `Handler`, as the conversion `Handler(f)` or a variable
  declared `Handler` gives: its dynamic type is `server.Handler`, not the unnamed function
  type. -/
  | handler (h : Handler)
  /-- A value of any other type. -/
  | other (tag : Nat)

/-- The errors of `RegisterHandlers`. -/
inductive RegisterError
  | ErrOddArguments
  /-- The value of `fmt.Errorf("%d argument must be ResourceIDType, got, %T", index, ...)`. -/
  | notResourceID (index : Nat)
  /-- The value of `fmt.Errorf("%d argument must be Handler, got %T", funcIndex, ...)`. -/
  | notHandler (funcIndex : Nat)
deriving DecidableEq, Repr

/-- Method `RegisterHandler`: `handlers.Store(resourceID, handler)`. -/
def Server.RegisterHandler (s : Server) (resourceID : ResourceIDType) (handler : Handler) :
    Server :=
  { s with handlers := fun id => if id = resourceID then some handler else s.handlers id }

/-- The `for` loop of `RegisterHandlers` at position `index`, over the arguments from there
on. The type assertions are `resource.(proto.ResourceIDType)` and
`fun.(func(context.Context) ([]byte, error))`, the second on the unnamed function type: only
`Arg.func` passes it. -/
def Server.registerLoop (s : Server) (index : Nat) : List Arg → Option RegisterError × Server
  | resource :: fn :: rest =>
    match resource with
    | Arg.resourceID resourceID =>
      match fn with
      | Arg.func handler =>
        Server.registerLoop (s.RegisterHandler resourceID handler) (index + 2) rest
      | _ => (some (RegisterError.notHandler (index + 1)), s)
    | _ => (some (RegisterError.notResourceID index), s)
  | _ => (none, s)

/-- Method `RegisterHandlers`: the returned error and the server afterwards. -/
def Server.RegisterHandlers (s : Server) (resourcesAndFuncs : List Arg) :
    Option RegisterError × Server :=
  if resourcesAndFuncs.length % 2 ≠ 0 then (some RegisterError.ErrOddArguments, s)
  else s.registerLoop 0 resourcesAndFuncs

/-- Specification: the arguments spelling a sequence of (id, handler) pairs, each handler
passed as a value of the unnamed function type. -/
def pairArgs (pairs : List (ResourceIDType × Handler)) : List Arg :=
  pairs.flatMap (fun p => [Arg.resourceID p.1, Arg.func p.2])

/-- Specification: last-write-wins. The handler of the last pair for `id`, or the handler
registered before when there is no such pair. -/
def lastWins (before : ResourceIDType → Option Handler)
    (pairs : List (ResourceIDType × Handler)) (id : ResourceIDType) : Option Handler :=
  match (pairs.filter (fun p => p.1 = id)).getLast? with
  | some p => some p.2
  | none => before id

/-! ## Inputs for the examples -/

/-- A solved challenge: `rand = [01 02 03 04]`, difficulty 3, issued at second 100 under
`"valid_secret"`, with nonce 2. -/
def solved : Challenge := { pow.NewChallenge pow.testRand 3 100 pow.validSecret with Nonce := 2 }

/-- A codec that decodes the payload `"c"` as the challenge `c`, and nothing else. -/
def codecOf (c : Challenge) : Codec :=
  { Marshal := fun _ => pow.ascii "c",
    Unmarshal := fun b => if b = pow.ascii "c" then some c else none }

/-- A handler that answers `"quote"`. -/
def quoteHandler : Handler := fun _ => Except.ok (some (pow.ascii "quote"))

/-- A server with secret `"valid_secret"`, challenge timeout 400 ms, the cache `cache` and the
handler `quoteHandler` for resource 0. -/
def exampleServer (cache : Cache) : Server :=
  { handlers := fun id => if id = 0 then some quoteHandler else none,
    cache := some cache, secret := pow.validSecret, readTimeout := 500000000,
    writeTimeout := 500000000, challengeTimeout := 400000000, challengeRandBytesCount := 8,
    powDifficulty := 3 }

/-- A Resource request for resource `id` with payload `"c"`. -/
def resourceRequest (id : ResourceIDType) : Request :=
  { Typ := proto.RequestTypeResource, ResourceID := id, Payload := some (pow.ascii "c") }

end server

/-!
# Client driver

A shallow embedding of `client/request.go`; `json.Marshal` is a parameter.
-/

namespace client

open pow (Byte)

/-- The constant `QuoteResourceID`. -/
def QuoteResourceID : proto.ResourceIDType := 0

/-- The constant `TimeResourceID`. -/
def TimeResourceID : proto.ResourceIDType := 1

/-- The `request` struct (field `Type` is spelled `Typ`); `Data` is `none` for a nil
interface value. -/
structure request (α : Type) where
  Data : Option α
  ResourceID : proto.ResourceIDType
  Typ : proto.RequestType

/-- The error `makeRequest` returns when `json.Marshal` fails. -/
inductive MakeError
  /-- The value of `fmt.Errorf("marshaling data: %w", err)`. -/
  | marshaling
deriving DecidableEq, Repr

/-- Method `makeRequest`; `marshal` is `json.Marshal` (`none` when it returns an error). -/
def request.makeRequest {α : Type} (marshal : α → Option (List Byte)) (r : request α) :
    Except MakeError proto.Request :=
  let req : proto.Request := { Typ := r.Typ, ResourceID := 0, Payload := none }
  match r.Data with
  | some value =>
    match marshal value with
    | none => Except.error MakeError.marshaling
    | some data => Except.ok { req with Payload := some data }
  | none => Except.ok req

/-- The request `doChallenge` builds for the resource `resourceID` and the solved
challenge. -/
def resourceRequestOf (resourceID : proto.ResourceIDType) (challenge : pow.Challenge) :
    request pow.Challenge :=
  { Typ := proto.RequestTypeResource, ResourceID := resourceID, Data := some challenge }

end client

namespace pow

/-- The cached target, when there is one, is the target of the current `Difficulty`. -/
def Consistent (c : Challenge) : Prop :=
  c.targetInt = none ∨ c.targetInt = some ({ c with targetInt := none } : Challenge).target.1

/-- The challenges reached through the public operations without assigning `Difficulty`
after a target was computed: `NewChallenge`, struct literals, assignments to the exported
fields (to `Difficulty` only while no target is cached), `ComputeNonce` and `VerifyNonce`. -/
inductive Stable : Challenge → Prop
  | new (rand : List Byte) (difficulty : Fin 256) (unix : Int) (secret : List Byte) :
    Stable (NewChallenge rand difficulty unix secret)
  | lit (signature rand : List Byte) (unix nonce : Int) (difficulty : Fin 256) :
    Stable { targetInt := none, Signature := signature, Rand := rand, UnixTimestamp := unix,
             Nonce := nonce, Difficulty := difficulty }
  | setSignature (c : Challenge) (signature : List Byte) :
    Stable c → Stable { c with Signature := signature }
  | setRand (c : Challenge) (rand : List Byte) : Stable c → Stable { c with Rand := rand }
  | setUnixTimestamp (c : Challenge) (unix : Int) :
    Stable c → Stable { c with UnixTimestamp := unix }
  | setNonce (c : Challenge) (nonce : Int) : Stable c → Stable { c with Nonce := nonce }
  | setDifficulty (c : Challenge) (difficulty : Fin 256) :
    Stable c → c.targetInt = none → Stable { c with Difficulty := difficulty }
  | computeNonce (c c' : Challenge) (ctx : Context) (fuel : Nat) (err : Option Error) :
    Stable c → c.ComputeNonce ctx fuel = some (err, c') → Stable c'
  | verifyNonce (c : Challenge) : Stable c → Stable c.VerifyNonce.2

/-! ## Lemmas on the library functions -/

theorem sha256.length_beBytes (n x : Nat) : (sha256.beBytes n x).length = n := by
  induction n with
  | zero => rfl
  | succ n ih => simp [sha256.beBytes, ih]

theorem sha256.length_flatMap_beBytes (l : List Nat) :
    (l.flatMap (sha256.beBytes 4)).length = 4 * l.length := by
  induction l with
  | nil => rfl
  | cons x l ih => simp [List.flatMap_cons, sha256.length_beBytes, ih]; omega

theorem sha256.length_compress (hs block : List Nat) (h : hs.length = 8) :
    (sha256.compress hs block).length = 8 := by
  simp [sha256.compress, h]

theorem sha256.length_blocks (n : Nat) (hs bs : List Nat) (h : hs.length = 8) :
    (sha256.blocks n hs bs).length = 8 := by
  induction n generalizing hs bs with
  | zero => simpa [sha256.blocks] using h
  | succ n ih =>
    simp only [sha256.blocks]
    exact ih _ _ (sha256.length_compress hs _ h)

/-- A SHA-256 digest has 32 bytes. -/
theorem sha256.length_Sum (msg : List Byte) : (sha256.Sum msg).length = 32 := by
  simp only [sha256.Sum, sha256.digestWords, List.length_map, sha256.length_flatMap_beBytes]
  rw [sha256.length_blocks _ sha256.init _ (by rfl)]

/-- An HMAC-SHA256 tag has 32 bytes. -/
theorem hmac.length_tag (key msg : List Byte) : (hmac.Sum key msg).length = 32 := by
  simp only [hmac.Sum]
  exact sha256.length_Sum _

theorem hmac.Sum_ne_nil (key msg : List Byte) : hmac.Sum key msg ≠ [] := by
  intro h
  have := hmac.length_tag key msg
  rw [h] at this
  simp at this

theorem decimalDigits_eq (fuel : Nat) : ∀ (n : Nat) (acc : List Byte), n < fuel →
    decimalDigits fuel n acc = decimalDigitsSpec n ++ acc := by
  induction fuel with
  | zero => intro n acc h; omega
  | succ fuel ih =>
    intro n acc h
    unfold decimalDigits
    by_cases h10 : n < 10
    · rw [if_pos h10]
      by_cases h0 : n = 0
      · subst h0; rfl
      · simp [decimalDigitsSpec, h0, Nat.digits_of_lt 10 n h0 h10]
    · rw [if_neg h10, ih (n / 10) _ (by omega)]
      have hpos : 0 < n := by omega
      have hq : n / 10 ≠ 0 := by omega
      have hn : n ≠ 0 := by omega
      simp [decimalDigitsSpec, hq, hn, Nat.digits_def' (by decide : 1 < 10) hpos]

theorem formatUint_eq (n : Nat) : formatUint n = decimalDigitsSpec n := by
  simp [formatUint, decimalDigits_eq (n + 1) n [] (Nat.lt_succ_self n)]

/-- The embedded `strconv.FormatInt` produces the specified decimal text. -/
theorem FormatInt_eq_decimalAscii (i : Int) : FormatInt i = decimalAscii i := by
  unfold FormatInt decimalAscii
  by_cases h : i < 0 <;> simp [h, formatUint_eq]

theorem byteOf_digit_val (d : Nat) (h : d < 10) : (byteOf (48 + d)).val - 48 = d := by
  simp only [byteOf]
  omega

theorem digitVal_digits (l : List Nat) (h : ∀ d ∈ l, d < 10) :
    digitVal (l.reverse.map (fun d => byteOf (48 + d))) = Nat.ofDigits 10 l := by
  induction l with
  | nil => rfl
  | cons x l ih =>
    have hx : x < 10 := h x (List.mem_cons_self _ _)
    have hl : ∀ d ∈ l, d < 10 := fun d hd => h d (List.mem_cons_of_mem _ hd)
    have ih' := ih hl
    simp only [digitVal] at ih' ⊢
    simp only [List.reverse_cons, List.map_append, List.map_cons, List.map_nil,
      List.foldl_append, List.foldl_cons, List.foldl_nil, ih', Nat.ofDigits_cons,
      byteOf_digit_val x hx]
    ring

theorem digitVal_decimalDigitsSpec (n : Nat) : digitVal (decimalDigitsSpec n) = n := by
  unfold decimalDigitsSpec
  by_cases h0 : n = 0
  · subst h0; rfl
  · rw [if_neg h0, digitVal_digits _ (fun d hd => Nat.digits_lt_base (by decide) hd),
      Nat.ofDigits_digits]

theorem decimalDigitsSpec_injective {n m : Nat} (h : decimalDigitsSpec n = decimalDigitsSpec m) :
    n = m := by
  rw [← digitVal_decimalDigitsSpec n, ← digitVal_decimalDigitsSpec m, h]

theorem mem_decimalDigitsSpec {n : Nat} {b : Byte} (h : b ∈ decimalDigitsSpec n) :
    48 ≤ b.val ∧ b.val ≤ 57 := by
  unfold decimalDigitsSpec at h
  by_cases h0 : n = 0
  · rw [if_pos h0] at h
    simp at h
    subst h
    decide
  · rw [if_neg h0] at h
    simp only [List.mem_map, List.mem_reverse] at h
    obtain ⟨d, hd, rfl⟩ := h
    have := Nat.digits_lt_base (by decide : 1 < 10) hd
    simp only [byteOf]
    omega

theorem decimalDigitsSpec_ne_nil (n : Nat) : decimalDigitsSpec n ≠ [] := by
  unfold decimalDigitsSpec
  by_cases h0 : n = 0
  · simp [h0]
  · simp [h0, Nat.digits_ne_nil_iff_ne_zero]

theorem delimiter_not_mem_decimalAscii (i : Int) : (58 : Byte) ∉ decimalAscii i := by
  unfold decimalAscii
  intro h
  rcases List.mem_append.mp h with h | h
  · by_cases hi : i < 0
    · rw [if_pos hi] at h
      simp at h
    · rw [if_neg hi] at h
      simp at h
  · have := mem_decimalDigitsSpec h
    have h58 : ((58 : Byte).val) = 58 := rfl
    omega

theorem decimalAscii_injective {i j : Int} (h : decimalAscii i = decimalAscii j) : i = j := by
  unfold decimalAscii at h
  have hhead : ∀ n : Nat, ∀ t : List Byte, (45 : Byte) :: t ≠ decimalDigitsSpec n := by
    intro n t ht
    have hm : (45 : Byte) ∈ decimalDigitsSpec n := by rw [← ht]; exact List.mem_cons_self _ _
    have := mem_decimalDigitsSpec hm
    have h45 : ((45 : Byte).val) = 45 := rfl
    omega
  by_cases hi : i < 0 <;> by_cases hj : j < 0
  · simp only [if_pos hi, if_pos hj, List.singleton_append, List.cons.injEq, true_and] at h
    have := decimalDigitsSpec_injective h
    omega
  · simp only [if_pos hi, if_neg hj, List.singleton_append, List.nil_append] at h
    exact absurd h (hhead _ _)
  · simp only [if_neg hi, if_pos hj, List.singleton_append, List.nil_append] at h
    exact absurd h.symm (hhead _ _)
  · simp only [if_neg hi, if_neg hj, List.nil_append] at h
    have := decimalDigitsSpec_injective h
    omega

theorem append_cons_inj_first {α : Type} {a : α} : ∀ {p p' q q' : List α}, a ∉ p → a ∉ p' →
    p ++ a :: q = p' ++ a :: q' → p = p' ∧ q = q' := by
  intro p
  induction p with
  | nil =>
    intro p' q q' _ hp' h
    cases p' with
    | nil => simpa using h
    | cons b t =>
      simp only [List.nil_append, List.cons_append, List.cons.injEq] at h
      exact absurd (h.1 ▸ List.mem_cons_self _ _) hp'
  | cons b t ih =>
    intro p' q q' hp hp' h
    cases p' with
    | nil =>
      simp only [List.nil_append, List.cons_append, List.cons.injEq] at h
      exact absurd (h.1 ▸ List.mem_cons_self _ _) hp
    | cons b' t' =>
      simp only [List.cons_append, List.cons.injEq] at h
      obtain ⟨h1, h2⟩ := ih (fun hm => hp (List.mem_cons_of_mem _ hm))
        (fun hm => hp' (List.mem_cons_of_mem _ hm)) h.2
      exact ⟨by rw [h.1, h1], h2⟩

theorem append_cons_inj_last {α : Type} {a : α} {p p' q q' : List α} (hq : a ∉ q) (hq' : a ∉ q')
    (h : p ++ a :: q = p' ++ a :: q') : p = p' ∧ q = q' := by
  have hr := congrArg List.reverse h
  simp only [List.reverse_append, List.reverse_cons, List.append_assoc, List.singleton_append]
    at hr
  obtain ⟨h1, h2⟩ := append_cons_inj_first (by simpa using hq) (by simpa using hq') hr
  exact ⟨List.reverse_injective h2, List.reverse_injective h1⟩

/-- The code's signed message is the specified byte string. -/
theorem buildHashingBytes_eq_signedMessage (c : Challenge) :
    c.buildHashingBytes = signedMessage c.Rand c.Difficulty c.UnixTimestamp := by
  simp [Challenge.buildHashingBytes, signedMessage, delimiter, FormatInt_eq_decimalAscii]

/-- The specified signed message, spelled with the embedded `strconv.FormatInt`. -/
theorem signedMessage_eq_FormatInt (rand : List Byte) (d : Fin 256) (u : Int) :
    signedMessage rand d u
      = rand ++ delimiter ++ FormatInt (d.val : Int) ++ delimiter ++ FormatInt u := by
  simp [signedMessage, delimiter, FormatInt_eq_decimalAscii]

/-- The specified signed message determines `rand`, `difficulty` and `unix`. -/
theorem signedMessage_injective {r r' : List Byte} {d d' : Fin 256} {u u' : Int}
    (h : signedMessage r d u = signedMessage r' d' u') : r = r' ∧ d = d' ∧ u = u' := by
  unfold signedMessage at h
  simp only [List.append_assoc, List.singleton_append] at h
  have h' : (r ++ 58 :: decimalAscii (d.val : Int)) ++ 58 :: decimalAscii u
      = (r' ++ 58 :: decimalAscii (d'.val : Int)) ++ 58 :: decimalAscii u' := by
    simpa [List.append_assoc] using h
  obtain ⟨h1, h2⟩ := append_cons_inj_last (delimiter_not_mem_decimalAscii u)
    (delimiter_not_mem_decimalAscii u') h'
  obtain ⟨h3, h4⟩ := append_cons_inj_last (delimiter_not_mem_decimalAscii _)
    (delimiter_not_mem_decimalAscii _) h1
  have hd : ((d.val : Int)) = (d'.val : Int) := decimalAscii_injective h4
  exact ⟨h3, Fin.ext (by exact_mod_cast hd), decimalAscii_injective h2⟩

/-! ## Lemmas on the challenge -/

theorem bytesAux_eq (fuel : Nat) : ∀ (n : Nat) (acc : List Byte), n ≤ fuel →
    bytesAux fuel n acc = minimalBigEndianBytes n ++ acc := by
  induction fuel with
  | zero =>
    intro n acc h
    have h0 : n = 0 := by omega
    subst h0
    simp [bytesAux, minimalBigEndianBytes]
  | succ fuel ih =>
    intro n acc h
    unfold bytesAux
    by_cases h0 : n = 0
    · subst h0
      simp [minimalBigEndianBytes]
    · rw [if_neg h0, ih (n / 256) _ (by omega)]
      have hpos : 0 < n := by omega
      have hb : byteOf n = byteOf (n % 256) := by simp [byteOf]
      simp [minimalBigEndianBytes, Nat.digits_def' (by decide : 1 < 256) hpos, hb]

/-- The embedded `big.Int.Bytes` yields the specified minimal big-endian bytes of the
magnitude. -/
theorem Bytes_eq (x : Int) : Bytes x = minimalBigEndianBytes x.natAbs := by
  simp [Bytes, bytesAux_eq x.natAbs x.natAbs [] (Nat.le_refl _)]

theorem foldl_bigEndian (l : List Nat) :
    l.reverse.foldl (fun acc b => acc * 256 + b) 0 = Nat.ofDigits 256 l := by
  induction l with
  | nil => rfl
  | cons x l ih =>
    simp only [List.reverse_cons, List.foldl_append, List.foldl_cons, List.foldl_nil, ih,
      Nat.ofDigits_cons]
    ring

/-- The embedded `big.Int.SetBytes` reads the bytes as an unsigned big-endian integer. -/
theorem SetBytes_eq (bs : List Byte) : SetBytes bs = (bigEndianValue bs : Int) := by
  unfold SetBytes bigEndianValue
  congr 1
  have h := foldl_bigEndian (bs.reverse.map Fin.val)
  rw [← List.map_reverse, List.reverse_reverse, List.foldl_map] at h
  exact h

theorem Int64_of_fits {x : Int} (h : fitsInt64 x) : Int64 x = x := by
  unfold fitsInt64 at h
  unfold Int64 wrapInt64
  by_cases hx : x < 0
  · simp only [if_pos hx]
    omega
  · simp only [if_neg hx]
    omega

theorem target_fst_of_fresh {c : Challenge} (h : c.targetInt = none) :
    c.target.1 = 2 ^ (255 - c.Difficulty.val) := by
  simp [Challenge.target, h, Lsh]

theorem target_snd_targetInt (c : Challenge) : c.target.2.targetInt = some c.target.1 := by
  unfold Challenge.target
  cases h : c.targetInt <;> simp [h]

theorem target_snd_fields (c : Challenge) :
    c.target.2.Rand = c.Rand ∧ c.target.2.Nonce = c.Nonce
      ∧ c.target.2.Difficulty = c.Difficulty ∧ c.target.2.Signature = c.Signature
      ∧ c.target.2.UnixTimestamp = c.UnixTimestamp := by
  unfold Challenge.target
  cases h : c.targetInt <;> simp

theorem target_of_cached {c : Challenge} {t : Int} (h : c.targetInt = some t) :
    c.target = (t, c) := by
  simp [Challenge.target, h]

theorem verifyNonce_snd (c : Challenge) (n : Int) : (c.verifyNonce n).2 = c.target.2 := rfl

/-- Once the target is cached, `verifyNonce` keeps the verdicts of the original challenge and
no longer changes the challenge, whatever is stored in `Nonce`. -/
theorem verifyNonce_cached (c : Challenge) (n m : Int) :
    ({ c.target.2 with Nonce := n }).verifyNonce m
      = ((c.verifyNonce m).1, { c.target.2 with Nonce := n }) := by
  obtain ⟨t, sg, rand, u, nn, d⟩ := c
  cases t <;> rfl

theorem verifyNonce_settled (c : Challenge) (m : Int) :
    c.target.2.verifyNonce m = ((c.verifyNonce m).1, c.target.2) := by
  have h := verifyNonce_cached c c.target.2.Nonce m
  simpa using h

theorem target_snd_idem (c : Challenge) : c.target.2.target.2 = c.target.2 := by
  have h := congrArg Prod.snd (verifyNonce_settled c 0)
  simpa [verifyNonce_snd] using h

theorem verifyNonce_settled_fst (c : Challenge) (m : Int) :
    (c.target.2.verifyNonce m).1 = (c.verifyNonce m).1 := by
  rw [verifyNonce_settled]

theorem search_succ (ctx : Context) (fuel i : Nat) (c : Challenge) (nonce : Int) :
    Challenge.search ctx (fuel + 1) i c nonce
      = match ctx i with
        | some e => some { err := some (Error.context e), nonce := nonce, challenge := c }
        | none =>
          if (c.verifyNonce nonce).1 then
            some { err := none, nonce := nonce, challenge := c.target.2 }
          else Challenge.search ctx fuel (i + 1) c.target.2 (nonce + 1) := rfl

/-- What a finished search says about the iterations it went through: `k` tries failed without
the context being done, and the loop was left at the `k`-th evaluation of `select`, either on a
passing nonce or on a done context. -/
theorem search_sound (ctx : Context) (fuel : Nat) : ∀ (i : Nat) (c : Challenge) (nonce : Int)
    (r : SearchResult), Challenge.search ctx fuel i c nonce = some r →
    ∃ k : Nat, k < fuel ∧ r.nonce = nonce + (k : Int)
      ∧ (∀ j : Nat, j < k → ctx (i + j) = none ∧ (c.verifyNonce (nonce + (j : Int))).1 = false)
      ∧ ((ctx (i + k) = none ∧ (c.verifyNonce (nonce + (k : Int))).1 = true ∧ r.err = none
            ∧ r.challenge = c.target.2)
        ∨ (∃ e, ctx (i + k) = some e ∧ r.err = some (Error.context e)
            ∧ r.challenge = if k = 0 then c else c.target.2)) := by
  induction fuel with
  | zero => intro i c nonce r h; simp [Challenge.search] at h
  | succ fuel ih =>
    intro i c nonce r h
    rw [search_succ] at h
    cases hctx : ctx i with
    | some e =>
      rw [hctx] at h
      simp only [Option.some.injEq] at h
      subst h
      exact ⟨0, by omega, by simp, by intro j hj; omega, Or.inr ⟨e, by simpa using hctx, rfl, by simp⟩⟩
    | none =>
      rw [hctx] at h
      simp only at h
      cases hv : (c.verifyNonce nonce).1 with
      | true =>
        rw [hv] at h
        simp only [if_true, Option.some.injEq] at h
        subst h
        exact ⟨0, by omega, by simp, by intro j hj; omega,
          Or.inl ⟨by simpa using hctx, by simpa using hv, rfl, rfl⟩⟩
      | false =>
        rw [hv] at h
        simp only [Bool.false_eq_true, if_false] at h
        obtain ⟨k, hk, hn, hpre, hend⟩ := ih (i + 1) c.target.2 (nonce + 1) r h
        have hidx : ∀ j : Nat, i + 1 + j = i + (j + 1) := by intro j; omega
        have hnon : ∀ j : Nat, nonce + 1 + (j : Int) = nonce + ((j + 1 : Nat) : Int) := by
          intro j; push_cast; ring
        refine ⟨k + 1, by omega, by rw [hn, hnon], ?_, ?_⟩
        · intro j hj
          cases j with
          | zero => exact ⟨by simpa using hctx, by simpa using hv⟩
          | succ j =>
            have := hpre j (by omega)
            rw [hidx, hnon, verifyNonce_settled_fst] at this
            exact this
        · rw [hidx, hnon, verifyNonce_settled_fst, target_snd_idem] at hend
          rcases hend with h1 | ⟨e, h1, h2, h3⟩
          · exact Or.inl h1
          · refine Or.inr ⟨e, h1, h2, ?_⟩
            rw [h3]
            by_cases hk0 : k = 0 <;> simp [hk0]

/-- After `k` failed tries during which the context is not done, the loop goes on from the
`k`-th evaluation of `select` with the nonce advanced by `k`. -/
theorem search_skip (ctx : Context) (fuel : Nat) : ∀ (k i : Nat) (c : Challenge) (nonce : Int),
    (∀ j : Nat, j < k → ctx (i + j) = none ∧ (c.verifyNonce (nonce + (j : Int))).1 = false) →
    Challenge.search ctx (fuel + k) i c nonce
      = Challenge.search ctx fuel (i + k) (if k = 0 then c else c.target.2)
          (nonce + (k : Int)) := by
  intro k
  induction k with
  | zero => intro i c nonce _; simp
  | succ k ih =>
    intro i c nonce h
    have h0 := h 0 (by omega)
    simp only [Nat.add_zero, Nat.cast_zero, add_zero] at h0
    have hstep : Challenge.search ctx (fuel + (k + 1)) i c nonce
        = Challenge.search ctx (fuel + k) (i + 1) c.target.2 (nonce + 1) := by
      rw [← Nat.add_assoc, search_succ, h0.1]
      simp [h0.2]
    have hidx : ∀ j : Nat, i + 1 + j = i + (j + 1) := by intro j; omega
    have hnon : ∀ j : Nat, nonce + 1 + (j : Int) = nonce + ((j + 1 : Nat) : Int) := by
      intro j; push_cast; ring
    rw [hstep, ih (i + 1) c.target.2 (nonce + 1) (by
      intro j hj
      have := h (j + 1) (by omega)
      rw [hidx, hnon, verifyNonce_settled_fst]
      exact this)]
    rw [hidx, hnon, target_snd_idem]
    by_cases hk0 : k = 0 <;> simp [hk0]

/-! ## Signature claims -/

/-- C1: for every rand, difficulty, unix timestamp and secret, the challenge returned by
`NewChallenge(rand, difficulty, unix, secret)` passes `VerifySign(secret)`: the call returns
`nil`. -/
theorem NewChallenge_VerifySign (rand : List Byte) (difficulty : Fin 256) (unix : Int)
    (secret : List Byte) :
    (NewChallenge rand difficulty unix secret).VerifySign secret = none := by
  simp [Challenge.VerifySign, NewChallenge, Challenge.sig, Challenge.buildHashingBytes]

/-- C2: `c.VerifySign(secret)` returns `nil` exactly when `c.Signature` is the HMAC-SHA256 tag
under `secret` of `Rand || 0x3A || decimal_ascii(Difficulty) || 0x3A ||
decimal_ascii(UnixTimestamp)`, and otherwise returns an error that is `ErrInvalidSignature`;
any other signature put in place of the accepted one, the empty one included, is rejected with
such an error; and the result does not depend on `Nonce`. -/
theorem VerifySign_iff_signature (c : Challenge) (secret : List Byte) :
    (c.VerifySign secret = none ↔
        c.Signature = hmac.Sum secret (signedMessage c.Rand c.Difficulty c.UnixTimestamp))
    ∧ (c.Signature ≠ hmac.Sum secret (signedMessage c.Rand c.Difficulty c.UnixTimestamp) →
        ∃ e, c.VerifySign secret = some e ∧ e.Is Sentinel.ErrInvalidSignature = true)
    ∧ (∀ s : List Byte, c.VerifySign secret = none → s ≠ c.Signature →
        ∃ e, ({ c with Signature := s }).VerifySign secret = some e
          ∧ e.Is Sentinel.ErrInvalidSignature = true)
    ∧ (c.VerifySign secret = none →
        ∃ e, ({ c with Signature := [] }).VerifySign secret = some e
          ∧ e.Is Sentinel.ErrInvalidSignature = true)
    ∧ (∀ n : Int, ({ c with Nonce := n }).VerifySign secret = c.VerifySign secret) := by
  have hsig : ∀ c : Challenge,
      c.sig secret = hmac.Sum secret (signedMessage c.Rand c.Difficulty c.UnixTimestamp) := by
    intro c
    simp [Challenge.sig, buildHashingBytes_eq_signedMessage]
  have hiff : ∀ c : Challenge, c.VerifySign secret = none ↔
      c.Signature = hmac.Sum secret (signedMessage c.Rand c.Difficulty c.UnixTimestamp) := by
    intro c
    unfold Challenge.VerifySign
    rw [hsig c]
    by_cases h : c.Signature
        = hmac.Sum secret (signedMessage c.Rand c.Difficulty c.UnixTimestamp) <;> simp [h]
  have hrej : ∀ c : Challenge,
      c.Signature ≠ hmac.Sum secret (signedMessage c.Rand c.Difficulty c.UnixTimestamp) →
      ∃ e, c.VerifySign secret = some e ∧ e.Is Sentinel.ErrInvalidSignature = true := by
    intro c h
    refine ⟨Error.invalidSignature c.Signature, ?_, rfl⟩
    unfold Challenge.VerifySign
    rw [hsig c, if_pos h]
  refine ⟨hiff c, hrej c, ?_, ?_, ?_⟩
  · intro s hok hne
    have hc := (hiff c).mp hok
    exact hrej { c with Signature := s } (fun h => hne (by rw [hc]; exact h))
  · intro hok
    exact hrej { c with Signature := [] } (fun h => hmac.Sum_ne_nil _ _ h.symm)
  · intro n
    rfl

/-- C3, counterexample: the challenge signed under `"valid_secret"` also passes `VerifySign`
under the different secret `"valid_secret\x00"`, because HMAC pads a short key with zero bytes
to the block length. -/
theorem VerifySign_zero_padded_secret :
    validSecret ≠ validSecret ++ [0]
      ∧ (NewChallenge testRand 1 1700000000 validSecret).VerifySign (validSecret ++ [0])
          = none := by
  decide

/-- C3, amended: for a challenge built by `NewChallenge(rand, difficulty, unix, secret)` and a
secret `s` whose HMAC-SHA256 tag of the signed message differs from the tag under `secret`,
`VerifySign(s)` returns an error that is `ErrInvalidSignature` (carrying the signature of the
challenge). -/
theorem VerifySign_other_secret (rand : List Byte) (difficulty : Fin 256) (unix : Int)
    (secret s : List Byte)
    (h : hmac.Sum s (signedMessage rand difficulty unix)
      ≠ hmac.Sum secret (signedMessage rand difficulty unix)) :
    (NewChallenge rand difficulty unix secret).VerifySign s
        = some (Error.invalidSignature (hmac.Sum secret (signedMessage rand difficulty unix)))
      ∧ (Error.invalidSignature (hmac.Sum secret (signedMessage rand difficulty unix))).Is
          Sentinel.ErrInvalidSignature = true := by
  refine ⟨?_, rfl⟩
  have hb : ∀ sg n t, Challenge.buildHashingBytes
      { targetInt := t, Signature := sg, Rand := rand, UnixTimestamp := unix, Nonce := n,
        Difficulty := difficulty } = signedMessage rand difficulty unix :=
    fun sg n t => buildHashingBytes_eq_signedMessage _
  simp only [Challenge.VerifySign, NewChallenge, Challenge.sig, hb]
  rw [if_pos (fun hEq => h hEq.symm)]

/-- C3, witness: the secrets of the package test, `"valid_secret"` and `"test_secret"`. -/
theorem VerifySign_other_secret_witness :
    hmac.Sum invalidSecret (signedMessage testRand 1 1700000000)
        ≠ hmac.Sum validSecret (signedMessage testRand 1 1700000000)
      ∧ (NewChallenge testRand 1 1700000000 validSecret).VerifySign invalidSecret
        = some (Error.invalidSignature
            (hmac.Sum validSecret (signedMessage testRand 1 1700000000))) :=
  have h : hmac.Sum invalidSecret (signedMessage testRand 1 1700000000)
      ≠ hmac.Sum validSecret (signedMessage testRand 1 1700000000) := by
    rw [signedMessage_eq_FormatInt]
    decide
  ⟨h, (VerifySign_other_secret testRand 1 1700000000 validSecret invalidSecret h).1⟩

/-- C4: the signed message `buildHashingBytes` is an injective function of `(rand, difficulty,
unix)` for arbitrary byte strings `rand`: a challenge whose three fields differ from those of
`c = NewChallenge(rand, d, u, secret)` has a different signed message; hence, if HMAC-SHA256
under `secret` does not give these two distinct messages the same tag, the challenge carrying
the signature of `c` with the changed fields fails `VerifySign(secret)` with an error that is
`ErrInvalidSignature`. -/
theorem changed_fields_break_signature (rand rand' : List Byte) (d d' : Fin 256) (u u' : Int)
    (secret : List Byte) (hne : (rand', d', u') ≠ (rand, d, u)) :
    ({ NewChallenge rand d u secret with
        Rand := rand', Difficulty := d', UnixTimestamp := u' }).buildHashingBytes
      ≠ (NewChallenge rand d u secret).buildHashingBytes
    ∧ ((hmac.Sum secret ({ NewChallenge rand d u secret with
            Rand := rand', Difficulty := d', UnixTimestamp := u' }).buildHashingBytes
          = hmac.Sum secret (NewChallenge rand d u secret).buildHashingBytes →
        ({ NewChallenge rand d u secret with
            Rand := rand', Difficulty := d', UnixTimestamp := u' }).buildHashingBytes
          = (NewChallenge rand d u secret).buildHashingBytes) →
      ∃ e, ({ NewChallenge rand d u secret with
          Rand := rand', Difficulty := d', UnixTimestamp := u' }).VerifySign secret = some e
        ∧ e.Is Sentinel.ErrInvalidSignature = true) := by
  have hmsg : ({ NewChallenge rand d u secret with
        Rand := rand', Difficulty := d', UnixTimestamp := u' }).buildHashingBytes
      ≠ (NewChallenge rand d u secret).buildHashingBytes := by
    intro h
    rw [buildHashingBytes_eq_signedMessage, buildHashingBytes_eq_signedMessage] at h
    obtain ⟨h1, h2, h3⟩ := signedMessage_injective h
    simp only [NewChallenge] at h1 h2 h3
    exact hne (by rw [h1, h2, h3])
  refine ⟨hmsg, fun hinj => ⟨Error.invalidSignature (NewChallenge rand d u secret).Signature, ?_,
    rfl⟩⟩
  have hsig : (NewChallenge rand d u secret).Signature
      = hmac.Sum secret (NewChallenge rand d u secret).buildHashingBytes := rfl
  unfold Challenge.VerifySign
  rw [if_pos]
  intro heq
  simp only [Challenge.sig] at heq
  exact hmsg (hinj (by rw [← heq]; exact hsig.symm))

/-- C4, witness: the test case "updated rand", where a byte is appended to `rand`. -/
theorem changed_fields_break_signature_witness :
    (testRand ++ [1], (1 : Fin 256), (1700000000 : Int)) ≠ (testRand, 1, 1700000000)
      ∧ ∃ e, ({ NewChallenge testRand 1 1700000000 validSecret with
          Rand := testRand ++ [1], Difficulty := 1, UnixTimestamp := 1700000000 }).VerifySign
            validSecret = some e
        ∧ e.Is Sentinel.ErrInvalidSignature = true :=
  ⟨by decide,
    (changed_fields_break_signature testRand (testRand ++ [1]) 1 1 1700000000 1700000000
      validSecret (by decide)).2 (fun h => absurd h (by decide))⟩

/-! ## Proof-of-work claims -/

/-- The compared hash of the code is the specified proof-of-work hash. -/
theorem powHash_cast (rand : List Byte) (nonce : Int) :
    ((powHash rand nonce : Nat) : Int) = SetBytes (sha256.Sum (rand ++ Bytes nonce)) := by
  rw [SetBytes_eq, Bytes_eq, powHash]

theorem VerifyNonce_fst_eq_none (c : Challenge) :
    c.VerifyNonce.1 = none ↔ (c.verifyNonce c.Nonce).1 = true := by
  unfold Challenge.VerifyNonce
  cases h : (c.verifyNonce c.Nonce).1 <;> simp [h]

theorem difficulty_ne_zero {c : Challenge} (hd : 0 < c.Difficulty.val) : c.Difficulty ≠ 0 := by
  intro h
  rw [h] at hd
  exact absurd hd (by decide)

/-- What a successful `ComputeNonce` went through: the loop stopped on a passing nonce
`c.Nonce + k` after `k` failed tries. -/
theorem ComputeNonce_ok_inv (ctx : Context) (fuel : Nat) (c c' : Challenge)
    (hd : 0 < c.Difficulty.val) (h : c.ComputeNonce ctx fuel = some (none, c')) :
    ∃ k : Nat, k < fuel
      ∧ Challenge.search ctx fuel 0 c c.Nonce
          = some { err := none, nonce := c.Nonce + (k : Int), challenge := c.target.2 }
      ∧ c' = { c.target.2 with Nonce := Int64 (c.Nonce + (k : Int)) }
      ∧ (c.verifyNonce (c.Nonce + (k : Int))).1 = true
      ∧ ∀ j : Nat, j < k → (c.verifyNonce (c.Nonce + (j : Int))).1 = false := by
  unfold Challenge.ComputeNonce at h
  rw [if_neg (difficulty_ne_zero hd)] at h
  cases hs : Challenge.search ctx fuel 0 c c.Nonce with
  | none => rw [hs] at h; simp at h
  | some r =>
    rw [hs] at h
    simp only [Option.some.injEq, Prod.mk.injEq] at h
    obtain ⟨k, hk, hn, hpre, hend⟩ := search_sound ctx fuel 0 c c.Nonce r hs
    rcases hend with ⟨_, hpass, herr, hch⟩ | ⟨e, _, herr, _⟩
    · refine ⟨k, hk, ?_, ?_, hpass, fun j hj => (hpre j hj).2⟩
      · obtain ⟨re, rn, rc⟩ := r
        simp only at hn herr hch
        rw [hn, herr, hch]
      · rw [← h.2, hch, hn]
    · rw [herr] at h
      simp at h

/-- C5, counterexample: with `rand = [01 02 03 04]`, nonce 1 and difficulty 2 the hash is below
`2^(256 - 2)` and yet `VerifyNonce` on the fresh challenge returns `ErrInvalidNonce`; and the
target computed for difficulty 255 is 1, not 2. -/
theorem VerifyNonce_rejects_below_claimed_target :
    (literal testRand 1 2).targetInt = none
      ∧ powHash testRand 1 < 2 ^ (256 - 2)
      ∧ (literal testRand 1 2).VerifyNonce.1 = some (Error.invalidNonce 1)
      ∧ (literal testRand 0 255).target.1 = 1 := by
  refine ⟨rfl, ?_, by decide, by decide⟩
  have h : SetBytes (sha256.Sum (testRand ++ Bytes 1)) < 2 ^ (256 - 2) := by decide
  rw [← powHash_cast] at h
  exact_mod_cast h

/-- C5, amended: for a challenge whose target has not been computed yet and whose difficulty is
at least 1, `VerifyNonce` returns `nil` exactly when `SHA256(Rand ||
minimal_big_endian_bytes(|Nonce|))`, read as an unsigned big-endian integer, is strictly less
than `2^(255 - Difficulty)`, and otherwise returns an error that is `ErrInvalidNonce`; the
target for difficulty 255 is 1. (Difficulty 0 is the subject of C6.) -/
theorem VerifyNonce_iff_below_target (c : Challenge) (hfresh : c.targetInt = none)
    (_hd : 1 ≤ c.Difficulty.val) :
    (c.VerifyNonce.1 = none ↔ powHash c.Rand c.Nonce < 2 ^ (255 - c.Difficulty.val))
      ∧ (¬ powHash c.Rand c.Nonce < 2 ^ (255 - c.Difficulty.val) →
          c.VerifyNonce.1 = some (Error.invalidNonce c.Nonce)
            ∧ (Error.invalidNonce c.Nonce).Is Sentinel.ErrInvalidNonce = true)
      ∧ (c.Difficulty.val = 255 → c.target.1 = 1) := by
  have hv : (c.verifyNonce c.Nonce).1 = true ↔
      powHash c.Rand c.Nonce < 2 ^ (255 - c.Difficulty.val) := by
    simp only [Challenge.verifyNonce, target_fst_of_fresh hfresh, ← powHash_cast,
      decide_eq_true_eq]
    exact_mod_cast Iff.rfl
  refine ⟨(VerifyNonce_fst_eq_none c).trans hv, ?_, ?_⟩
  · intro hnot
    have hf : (c.verifyNonce c.Nonce).1 = false := by
      cases hb : (c.verifyNonce c.Nonce).1 with
      | false => rfl
      | true => exact absurd (hv.mp hb) hnot
    refine ⟨?_, rfl⟩
    unfold Challenge.VerifyNonce
    simp [hf]
  · intro h255
    rw [target_fst_of_fresh hfresh, h255]
    rfl

/-- C5, witness: the test cases "valid nonce" (nonce 2) and "invalid nonce" (nonce 15) for
`rand = [01 02 03 04]` and difficulty 3. -/
theorem VerifyNonce_iff_below_target_witness :
    (literal testRand 2 3).VerifyNonce.1 = none
      ∧ powHash testRand 2 < 2 ^ (255 - 3)
      ∧ (literal testRand 15 3).VerifyNonce.1 = some (Error.invalidNonce 15)
      ∧ ¬ powHash testRand 15 < 2 ^ (255 - 3) :=
  have h2 : (literal testRand 2 3).VerifyNonce.1 = none := by decide
  have h15 : (literal testRand 15 3).VerifyNonce.1 = some (Error.invalidNonce 15) := by decide
  have t2 := VerifyNonce_iff_below_target (literal testRand 2 3) rfl (by decide)
  have t15 := VerifyNonce_iff_below_target (literal testRand 15 3) rfl (by decide)
  ⟨h2, t2.1.mp h2, h15, fun hlt => by
    have := t15.1.mpr hlt
    rw [h15] at this
    exact absurd this (by simp)⟩

/-- C6, the code at the failing input: on the difficulty-0 challenge for `rand = [01 02 03 04]`
`ComputeNonce` returns `nil` at once and leaves nonce 0, and `VerifyNonce` then returns
`ErrInvalidNonce`, the hash not being below the target `2^255`. -/
theorem difficulty_zero_nonce_rejected :
    (literal testRand 0 0).ComputeNonce background 0 = some (none, literal testRand 0 0)
      ∧ (literal testRand 0 0).target.1 = 2 ^ 255
      ∧ (literal testRand 0 0).VerifyNonce.1 = some (Error.invalidNonce 0) := by
  decide

/-- C7: for a challenge with `Difficulty > 0` and any starting `Nonce`, if `ComputeNonce`
returns `nil` and the nonce the loop stopped on fits in an `int64`, then `VerifyNonce` on the
resulting challenge returns `nil` (and leaves that challenge as it is). -/
theorem ComputeNonce_then_VerifyNonce (ctx : Context) (fuel : Nat) (c c' : Challenge)
    (hd : 0 < c.Difficulty.val) (h : c.ComputeNonce ctx fuel = some (none, c'))
    (hfit : ∀ r, Challenge.search ctx fuel 0 c c.Nonce = some r → fitsInt64 r.nonce) :
    c'.VerifyNonce = (none, c') := by
  obtain ⟨k, _, hs, hc', hpass, _⟩ := ComputeNonce_ok_inv ctx fuel c c' hd h
  have hf := Int64_of_fits (hfit _ hs)
  simp only at hf
  rw [hf] at hc'
  have hv := verifyNonce_cached c (c.Nonce + (k : Int)) (c.Nonce + (k : Int))
  rw [← hc', hpass] at hv
  have hn : c'.Nonce = c.Nonce + (k : Int) := by rw [hc']
  unfold Challenge.VerifyNonce
  rw [hn, hv]
  rfl

/-- C7, witness: the test case "difficulty 3" (`rand = [01 02 03 04]`, starting nonce 0), where
the search stops on nonce 2. -/
theorem ComputeNonce_then_VerifyNonce_witness :
    0 < (literal testRand 0 3).Difficulty.val
      ∧ (literal testRand 0 3).ComputeNonce background 5
          = some (none, { (literal testRand 0 3).target.2 with Nonce := 2 })
      ∧ ({ (literal testRand 0 3).target.2 with Nonce := 2 }).VerifyNonce
          = (none, { (literal testRand 0 3).target.2 with Nonce := 2 }) :=
  have h : (literal testRand 0 3).ComputeNonce background 5
      = some (none, { (literal testRand 0 3).target.2 with Nonce := 2 }) := by decide
  have hs : Challenge.search background 5 0 (literal testRand 0 3) (literal testRand 0 3).Nonce
      = some { err := none, nonce := 2, challenge := (literal testRand 0 3).target.2 } := by
    decide
  ⟨by decide, h, ComputeNonce_then_VerifyNonce background 5 (literal testRand 0 3) _
    (by decide) h (fun r hr => by
      rw [hs] at hr
      cases hr
      decide)⟩

/-- C8, counterexample: on a difficulty-0 challenge whose `Nonce` field holds 7, `ComputeNonce`
returns `nil` and the resulting `Nonce` is 7, not 0. -/
theorem ComputeNonce_difficulty_zero_keeps_nonce :
    (literal testRand 7 0).Difficulty = 0
      ∧ ((literal testRand 7 0).ComputeNonce background 0).map (fun r => (r.1, r.2.Nonce))
          = some (none, 7) := by
  decide

/-- C8, amended: for every challenge with `Difficulty = 0` and every context, `ComputeNonce`
returns `nil` immediately, without entering the loop and without hashing, and leaves the
challenge as it was: the resulting `Nonce` is the one held before the call, which is 0 for a
challenge fresh from `NewChallenge`. -/
theorem ComputeNonce_difficulty_zero (ctx : Context) (fuel : Nat) (c : Challenge)
    (hd : c.Difficulty = 0) : c.ComputeNonce ctx fuel = some (none, c) := by
  unfold Challenge.ComputeNonce
  rw [if_pos hd]

/-- C8, witness: the test case "difficulty 0", a challenge fresh from `NewChallenge`, with a
context that is already cancelled. -/
theorem ComputeNonce_difficulty_zero_witness :
    (NewChallenge testRand 0 1700000000 validSecret).Difficulty = 0
      ∧ (NewChallenge testRand 0 1700000000 validSecret).ComputeNonce
          (doneFrom 0 CtxError.Canceled) 0
          = some (none, NewChallenge testRand 0 1700000000 validSecret)
      ∧ (NewChallenge testRand 0 1700000000 validSecret).Nonce = 0 :=
  ⟨rfl, ComputeNonce_difficulty_zero (doneFrom 0 CtxError.Canceled) 0
    (NewChallenge testRand 0 1700000000 validSecret) rfl, rfl⟩

/-- C9, counterexample: with `rand = [04]`, difficulty 1 and starting nonce `2^63 - 1`, under a
context that is never done, the try at `2^63 - 1` fails and the try at `2^63` passes;
`ComputeNonce` returns `nil` and stores `Int64(2^63) = -2^63`, which is below the starting
nonce. -/
theorem ComputeNonce_wraps_past_max_int64 :
    0 < (literal [4] 9223372036854775807 1).Difficulty.val
      ∧ (0 : Int) ≤ (literal [4] 9223372036854775807 1).Nonce
      ∧ ((literal [4] 9223372036854775807 1).ComputeNonce background 2).map
          (fun r => (r.1, r.2.Nonce)) = some (none, -9223372036854775808)
      ∧ ¬ ((literal [4] 9223372036854775807 1).Nonce ≤ -9223372036854775808) := by
  decide

/-- C9, amended: `ComputeNonce` is a linear search from the current nonce. For `Difficulty > 0`
and a starting `Nonce` `s`, if `ComputeNonce` returns `nil` with `Nonce = n` and the nonce the
loop stopped on fits in an `int64`, then `n >= s`, the proof-of-work check holds at `n` and it
fails at every `m` with `s <= m < n`. (This holds whatever the context and the sign of `s`.) -/
theorem ComputeNonce_least_nonce (ctx : Context) (fuel : Nat) (c c' : Challenge)
    (hd : 0 < c.Difficulty.val) (h : c.ComputeNonce ctx fuel = some (none, c'))
    (hfit : ∀ r, Challenge.search ctx fuel 0 c c.Nonce = some r → fitsInt64 r.nonce) :
    c.Nonce ≤ c'.Nonce
      ∧ (c.verifyNonce c'.Nonce).1 = true
      ∧ ∀ m : Int, c.Nonce ≤ m → m < c'.Nonce → (c.verifyNonce m).1 = false := by
  obtain ⟨k, _, hs, hc', hpass, hfail⟩ := ComputeNonce_ok_inv ctx fuel c c' hd h
  have hf := Int64_of_fits (hfit _ hs)
  simp only at hf
  rw [hf] at hc'
  have hn : c'.Nonce = c.Nonce + (k : Int) := by rw [hc']
  rw [hn]
  refine ⟨by omega, hpass, ?_⟩
  intro m hlo hhi
  have hj := hfail (m - c.Nonce).toNat (by omega)
  have hm : c.Nonce + (((m - c.Nonce).toNat : Nat) : Int) = m := by omega
  rw [hm] at hj
  exact hj

/-- C9, witness: the test cases "difficulty 3" and "difficulty 4" for `rand = [01 02 03 04]`
and starting nonce 0, where the search stops on nonce 2 and on nonce 18. -/
theorem ComputeNonce_least_nonce_witness :
    ((literal testRand 0 3).ComputeNonce background 5
          = some (none, { (literal testRand 0 3).target.2 with Nonce := 2 })
        ∧ ((literal testRand 0 3).verifyNonce 2).1 = true
        ∧ ∀ m : Int, 0 ≤ m → m < 2 → ((literal testRand 0 3).verifyNonce m).1 = false)
      ∧ ((literal testRand 0 4).ComputeNonce background 20
          = some (none, { (literal testRand 0 4).target.2 with Nonce := 18 })
        ∧ ((literal testRand 0 4).verifyNonce 18).1 = true
        ∧ ∀ m : Int, 0 ≤ m → m < 18 → ((literal testRand 0 4).verifyNonce m).1 = false) :=
  have h3 : (literal testRand 0 3).ComputeNonce background 5
      = some (none, { (literal testRand 0 3).target.2 with Nonce := 2 }) := by decide
  have s3 : Challenge.search background 5 0 (literal testRand 0 3) (literal testRand 0 3).Nonce
      = some { err := none, nonce := 2, challenge := (literal testRand 0 3).target.2 } := by
    decide
  have h4 : (literal testRand 0 4).ComputeNonce background 20
      = some (none, { (literal testRand 0 4).target.2 with Nonce := 18 }) := by decide
  have s4 : Challenge.search background 20 0 (literal testRand 0 4) (literal testRand 0 4).Nonce
      = some { err := none, nonce := 18, challenge := (literal testRand 0 4).target.2 } := by
    decide
  ⟨⟨h3, (ComputeNonce_least_nonce background 5 (literal testRand 0 3) _ (by decide) h3
      (fun r hr => by rw [s3] at hr; cases hr; decide)).2⟩,
    ⟨h4, (ComputeNonce_least_nonce background 20 (literal testRand 0 4) _ (by decide) h4
      (fun r hr => by rw [s4] at hr; cases hr; decide)).2⟩⟩

/-- C10, counterexample: with `rand = [01 02 03 04]`, difficulty 3 and starting nonce 0, a
context found done at the second evaluation of `select`, after the one failed try at nonce 0,
makes `ComputeNonce` return `context.Canceled` with `Nonce = 1`, not the last tried value 0. -/
theorem ComputeNonce_cancelled_after_one_try :
    doneFrom 1 CtxError.Canceled 0 = none
      ∧ ((literal testRand 0 3).verifyNonce 0).1 = false
      ∧ doneFrom 1 CtxError.Canceled 1 = some CtxError.Canceled
      ∧ ((literal testRand 0 3).ComputeNonce (doneFrom 1 CtxError.Canceled) 5).map
          (fun r => (r.1, r.2.Nonce)) = some (some (Error.context CtxError.Canceled), 1)
      ∧ (1 : Int) ≠ 0 + 1 - 1 := by
  decide

/-- C10, amended: when `ComputeNonce` (`Difficulty > 0`) finds the context done after `k >= 1`
failed tries starting from nonce `s`, it returns the context's error and leaves in `Nonce` the
value `s + k`, the next one it would have tried (one more than the last value tried),
provided `s + k` fits in an `int64`; `k + 1` loop iterations suffice. -/
theorem ComputeNonce_cancelled (ctx : Context) (fuel : Nat) (c : Challenge) (k : Nat)
    (e : CtxError) (hd : 0 < c.Difficulty.val) (hk : 1 ≤ k) (hfuel : k < fuel)
    (hrun : ∀ j : Nat, j < k → ctx j = none ∧ (c.verifyNonce (c.Nonce + (j : Int))).1 = false)
    (hdone : ctx k = some e) (hfit : fitsInt64 (c.Nonce + (k : Int))) :
    c.ComputeNonce ctx fuel
      = some (some (Error.context e), { c.target.2 with Nonce := c.Nonce + (k : Int) }) := by
  obtain ⟨f, rfl⟩ : ∃ f, fuel = f + 1 + k := ⟨fuel - k - 1, by omega⟩
  have hskip := search_skip ctx (f + 1) k 0 c c.Nonce (by
    intro j hj
    rw [Nat.zero_add]
    exact hrun j hj)
  have hk0 : k ≠ 0 := by omega
  rw [Nat.zero_add, if_neg hk0, search_succ, hdone] at hskip
  unfold Challenge.ComputeNonce
  rw [if_neg (difficulty_ne_zero hd), hskip]
  simp only [Int64_of_fits hfit]

/-- C10, witness: `rand = [01 02 03 04]`, difficulty 3, starting nonce 0 and a context found
done after one failed try. -/
theorem ComputeNonce_cancelled_witness :
    0 < (literal testRand 0 3).Difficulty.val
      ∧ (literal testRand 0 3).ComputeNonce (doneFrom 1 CtxError.Canceled) 2
        = some (some (Error.context CtxError.Canceled),
            { (literal testRand 0 3).target.2 with Nonce := 0 + ((1 : Nat) : Int) }) :=
  ⟨by decide, ComputeNonce_cancelled (doneFrom 1 CtxError.Canceled) 2 (literal testRand 0 3) 1
    CtxError.Canceled (by decide) (by decide) (by decide)
    (fun j hj => by
      have hj0 : j = 0 := by omega
      subst hj0
      decide)
    rfl (by decide)⟩

/-- C11: for a challenge with `Difficulty > 0` and a context that is already done when
`ComputeNonce` is called (with `ctx.Err()` being `Canceled` or `DeadlineExceeded`), the first
evaluation of `select` returns that error: no nonce is tried, no target is computed and the
challenge, its `Nonce` included, is left as it was (`Nonce` 0 for a challenge fresh from
`NewChallenge`). One loop iteration suffices. -/
theorem ComputeNonce_context_done (ctx : Context) (fuel : Nat) (c : Challenge) (e : CtxError)
    (hd : 0 < c.Difficulty.val) (hfuel : 0 < fuel) (hdone : ctx 0 = some e)
    (hfit : fitsInt64 c.Nonce) :
    c.ComputeNonce ctx fuel = some (some (Error.context e), c)
      ∧ (e = CtxError.Canceled ∨ e = CtxError.DeadlineExceeded) := by
  obtain ⟨f, rfl⟩ : ∃ f, fuel = f + 1 := ⟨fuel - 1, by omega⟩
  refine ⟨?_, by cases e <;> simp⟩
  unfold Challenge.ComputeNonce
  rw [if_neg (difficulty_ne_zero hd), search_succ, hdone]
  simp only [Int64_of_fits hfit]

/-- C11, witness: the test cases "context cancelled" and "context deadline exceeded", a
difficulty-10 challenge fresh from `NewChallenge` under a context that is done from the
start. -/
theorem ComputeNonce_context_done_witness :
    (NewChallenge testRand 10 1700000000 validSecret).ComputeNonce
        (doneFrom 0 CtxError.Canceled) 1
        = some (some (Error.context CtxError.Canceled),
            NewChallenge testRand 10 1700000000 validSecret)
      ∧ (NewChallenge testRand 10 1700000000 validSecret).ComputeNonce
        (doneFrom 0 CtxError.DeadlineExceeded) 1
        = some (some (Error.context CtxError.DeadlineExceeded),
            NewChallenge testRand 10 1700000000 validSecret)
      ∧ (NewChallenge testRand 10 1700000000 validSecret).Nonce = 0 :=
  ⟨(ComputeNonce_context_done (doneFrom 0 CtxError.Canceled) 1
      (NewChallenge testRand 10 1700000000 validSecret) CtxError.Canceled (by decide)
      (by decide) rfl (by decide)).1,
    (ComputeNonce_context_done (doneFrom 0 CtxError.DeadlineExceeded) 1
      (NewChallenge testRand 10 1700000000 validSecret) CtxError.DeadlineExceeded (by decide)
      (by decide) rfl (by decide)).1, rfl⟩

/-! ## Claims on the sign of the nonce and on the cached target -/

theorem Bytes_neg (n : Int) : Bytes (-n) = Bytes n := by
  simp [Bytes]

/-- C26: the proof-of-work check ignores the sign of the nonce. For every challenge and every
nonce `n`, the challenge with `Nonce = n` passes `VerifyNonce` if and only if the same
challenge with `Nonce = -n` does, only the bytes of the magnitude being hashed; and `-n` is an
`int64` whenever `n` is one other than the minimum. -/
theorem VerifyNonce_ignores_sign (c : Challenge) (n : Int) :
    (({ c with Nonce := n } : Challenge).VerifyNonce.1 = none
        ↔ ({ c with Nonce := -n } : Challenge).VerifyNonce.1 = none)
      ∧ (fitsInt64 n → n ≠ -9223372036854775808 → fitsInt64 (-n)) := by
  constructor
  · rw [VerifyNonce_fst_eq_none, VerifyNonce_fst_eq_none]
    simp only [Challenge.verifyNonce, Challenge.target, Bytes_neg]
    cases c.targetInt <;> simp
  · intro hfit hmin
    unfold fitsInt64 at hfit ⊢
    omega

theorem Consistent_target {c : Challenge} (h : Consistent c) :
    c.target.1 = ({ c with targetInt := none } : Challenge).target.1 := by
  rcases h with h | h
  · obtain ⟨t, sg, rand, u, n, d⟩ := c
    simp only at h
    subst h
    rfl
  · rw [target_of_cached h]

theorem Consistent_target_snd {c : Challenge} (h : Consistent c) : Consistent c.target.2 := by
  right
  rw [target_snd_targetInt, Consistent_target h]
  obtain ⟨t, sg, rand, u, n, d⟩ := c
  cases t <;> rfl

theorem Consistent_setNonce {c : Challenge} (h : Consistent c) (n : Int) :
    Consistent { c with Nonce := n } := h

theorem VerifyNonce_snd (c : Challenge) : c.VerifyNonce.2 = c.target.2 := by
  unfold Challenge.VerifyNonce
  cases h : (c.verifyNonce c.Nonce).1 <;> simp [h, verifyNonce_snd]

theorem VerifyNonce_fst (c : Challenge) :
    c.VerifyNonce.1
      = if (c.verifyNonce c.Nonce).1 = true then none else some (Error.invalidNonce c.Nonce) := by
  unfold Challenge.VerifyNonce
  cases h : (c.verifyNonce c.Nonce).1 <;> simp [h]

theorem Stable_consistent {c : Challenge} (h : Stable c) : Consistent c := by
  induction h with
  | new rand difficulty unix secret => exact Or.inl rfl
  | lit signature rand unix nonce difficulty => exact Or.inl rfl
  | setSignature c signature _ ih => exact ih
  | setRand c rand _ ih => exact ih
  | setUnixTimestamp c unix _ ih => exact ih
  | setNonce c nonce _ ih => exact ih
  | setDifficulty c difficulty _ hnone _ => exact Or.inl hnone
  | computeNonce c c' ctx fuel err _ hrun ih =>
    unfold Challenge.ComputeNonce at hrun
    by_cases hd : c.Difficulty = 0
    · rw [if_pos hd] at hrun
      simp only [Option.some.injEq, Prod.mk.injEq] at hrun
      rw [← hrun.2]
      exact ih
    · rw [if_neg hd] at hrun
      cases hs : Challenge.search ctx fuel 0 c c.Nonce with
      | none => rw [hs] at hrun; simp at hrun
      | some r =>
        rw [hs] at hrun
        simp only [Option.some.injEq, Prod.mk.injEq] at hrun
        obtain ⟨k, _, _, _, hend⟩ := search_sound ctx fuel 0 c c.Nonce r hs
        have hch : Consistent r.challenge := by
          rcases hend with ⟨_, _, _, hch⟩ | ⟨e, _, _, hch⟩
          · rw [hch]
            exact Consistent_target_snd ih
          · rw [hch]
            by_cases hk : k = 0
            · rw [if_pos hk]
              exact ih
            · rw [if_neg hk]
              exact Consistent_target_snd ih
        rw [← hrun.2]
        exact Consistent_setNonce hch _
  | verifyNonce c _ ih =>
    rw [VerifyNonce_snd]
    exact Consistent_target_snd ih

/-- C27, counterexample: the challenge `rand = [01 02 03 04]`, nonce 2, difficulty 3 passes
`VerifyNonce`; after `Difficulty` is then set to 4 it still passes, the target computed for
difficulty 3 being kept, while a fresh challenge with the same `Rand`, `Nonce` and
`Difficulty = 4` is rejected. -/
theorem VerifyNonce_keeps_first_target :
    (literal testRand 2 3).VerifyNonce.1 = none
      ∧ ({ (literal testRand 2 3).VerifyNonce.2 with Difficulty := 4 } : Challenge).VerifyNonce.1
          = none
      ∧ (literal testRand 2 4).VerifyNonce.1 = some (Error.invalidNonce 2)
      ∧ ({ (literal testRand 2 3).VerifyNonce.2 with Difficulty := 4 } : Challenge).Rand
          = (literal testRand 2 4).Rand
      ∧ ({ (literal testRand 2 3).VerifyNonce.2 with Difficulty := 4 } : Challenge).Nonce
          = (literal testRand 2 4).Nonce
      ∧ ({ (literal testRand 2 3).VerifyNonce.2 with Difficulty := 4 } : Challenge).Difficulty
          = (literal testRand 2 4).Difficulty := by
  decide

/-- C27, amended: for every challenge reached through `NewChallenge`, struct literals,
`ComputeNonce`, `VerifyNonce` and assignments to the exported fields, `Difficulty` being
assigned only while no target has been computed, `VerifyNonce` returns `nil` exactly when the
hash of `(Rand, Nonce)` is below the target computed from the current `Difficulty`; so two such
challenges that agree on `Rand`, `Nonce` and `Difficulty` get the same result. -/
theorem VerifyNonce_public_fields (c c2 : Challenge) (h : Stable c) (h2 : Stable c2) :
    (c.VerifyNonce.1 = none ↔
        ((powHash c.Rand c.Nonce : Nat) : Int)
          < ({ c with targetInt := none } : Challenge).target.1)
      ∧ (c.Rand = c2.Rand → c.Nonce = c2.Nonce → c.Difficulty = c2.Difficulty →
          c.VerifyNonce.1 = c2.VerifyNonce.1) := by
  have key : ∀ c : Challenge, Stable c →
      (c.verifyNonce c.Nonce).1 = decide (((powHash c.Rand c.Nonce : Nat) : Int)
        < ({ c with targetInt := none } : Challenge).target.1) := by
    intro c hc
    simp only [Challenge.verifyNonce, Consistent_target (Stable_consistent hc), powHash_cast]
  constructor
  · rw [VerifyNonce_fst_eq_none, key c h, decide_eq_true_eq]
  · intro hr hn hd
    have ht : ({ c with targetInt := none } : Challenge).target.1
        = ({ c2 with targetInt := none } : Challenge).target.1 := by
      simp only [Challenge.target, hd]
    rw [VerifyNonce_fst, VerifyNonce_fst, key c h, key c2 h2, ht, hr, hn]

/-- C27, witness: the challenge of the test "valid nonce" after a first `VerifyNonce` call, and
a fresh one with the same public fields. -/
theorem VerifyNonce_public_fields_witness :
    (literal testRand 2 3).VerifyNonce.2.VerifyNonce.1 = (literal testRand 2 3).VerifyNonce.1 :=
  (VerifyNonce_public_fields (literal testRand 2 3).VerifyNonce.2 (literal testRand 2 3)
    (Stable.verifyNonce _ (Stable.lit [] testRand 0 2 3)) (Stable.lit [] testRand 0 2 3)).2
    (by decide) (by decide) (by decide)

end pow

/-! # Claims on the wire codec -/

namespace proto

open pow (Byte byteOf)

theorem PutUint16_eq (v : Nat) : PutUint16 v = littleEndian 2 v := by
  simp [PutUint16, littleEndian, List.range_succ]

theorem PutUint32_eq (v : Nat) (h : v ≤ maxPayloadLength) :
    PutUint32 (v % 4294967296) = littleEndian 4 v := by
  have hv : v % 4294967296 = v := Nat.mod_eq_of_lt (by unfold maxPayloadLength at h; omega)
  rw [hv]
  simp [PutUint32, littleEndian, List.range_succ]

theorem writeAndWrapErr_calls (writer : Writer) (p : List Byte) :
    (writeAndWrapErr writer p).calls = [p] := by
  unfold writeAndWrapErr
  generalize writer p = r
  rcases r with ⟨n, _ | err⟩
  · by_cases h0 : n = 0 <;> simp [h0]
  · simp

theorem WriteRequest_eq (writer : Writer) (req : Request)
    (h : len req.Payload ≤ maxPayloadLength) :
    WriteRequest writer req = writeAndWrapErr writer (requestFrame req) := by
  unfold WriteRequest
  simp only [if_neg (Nat.not_lt.mpr h), PutUint16_eq, PutUint32_eq _ h, requestFrame]

theorem WriteResponse_eq (writer : Writer) (res : Response)
    (h : len res.Payload ≤ maxPayloadLength) :
    WriteResponse writer res = writeAndWrapErr writer (responseFrame res) := by
  unfold WriteResponse
  simp only [if_neg (Nat.not_lt.mpr h), PutUint32_eq _ h, responseFrame]

/-- C12: for a request and a response whose payloads have at most `2^32 - 1` bytes,
`WriteRequest` makes exactly one `Write` call, with the bytes `[type] ++ [resource id, 2 bytes
little-endian] ++ [payload length, 4 bytes little-endian] ++ payload`, and `WriteResponse`
makes exactly one `Write` call, with `[status] ++ [payload length, 4 bytes little-endian] ++
payload`, whatever the writer answers. -/
theorem Write_single_frame (writer : Writer) (req : Request) (res : Response)
    (hreq : len req.Payload ≤ maxPayloadLength) (hres : len res.Payload ≤ maxPayloadLength) :
    (WriteRequest writer req).calls = [requestFrame req]
      ∧ (WriteResponse writer res).calls = [responseFrame res] := by
  rw [WriteRequest_eq writer req hreq, WriteResponse_eq writer res hres]
  exact ⟨writeAndWrapErr_calls _ _, writeAndWrapErr_calls _ _⟩

/-- C12, witness: the test cases "with payload", the request `(Resource, id 0, "some payload")`
written as `02 00 00 0C 00 00 00` and the 12 payload bytes, and the response `(OK, "some
payload")` written as `00 0C 00 00 00` and the payload. -/
theorem Write_single_frame_witness :
    (WriteRequest (fun _ => (1, none))
        { Typ := RequestTypeResource, ResourceID := 0, Payload := some somePayload }).calls
      = [[0x02, 0x00, 0x00, 0x0c, 0x00, 0x00, 0x00, 0x73, 0x6f, 0x6d, 0x65, 0x20, 0x70, 0x61,
          0x79, 0x6c, 0x6f, 0x61, 0x64]]
    ∧ (WriteResponse (fun _ => (1, none))
        { Status := StatusOK, Payload := some somePayload }).calls
      = [[0x00, 0x0c, 0x00, 0x00, 0x00, 0x73, 0x6f, 0x6d, 0x65, 0x20, 0x70, 0x61, 0x79, 0x6c,
          0x6f, 0x61, 0x64]] :=
  have h := Write_single_frame (fun _ => (1, none))
    { Typ := RequestTypeResource, ResourceID := 0, Payload := some somePayload }
    { Status := StatusOK, Payload := some somePayload } (by decide) (by decide)
  ⟨h.1.trans (by decide), h.2.trans (by decide)⟩

theorem fill_of_length {k : Nat} {written : List Byte} (h : written.length = k) :
    fill k written = written := by
  subst h
  simp [fill]

theorem readBytes_deliver {σ : Type} {reader : Reader σ} {rest : σ → List Byte}
    (hfull : DeliversInFull reader rest) (s : σ) (k : Nat) (pre post : List Byte)
    (hk : 0 < k) (hlen : pre.length = k) (hs : rest s = pre ++ post) :
    ∃ s', readBytes reader s k = (Except.ok pre, s') ∧ rest s' = post := by
  obtain ⟨h1, h2⟩ := hfull s k hk (by rw [hs, List.length_append]; omega)
  have htake : (rest s).take k = pre := by rw [hs, ← hlen, List.take_left]
  have hdrop : (rest s).drop k = post := by rw [hs, ← hlen, List.drop_left]
  refine ⟨(reader.Read s k).2, ?_, by rw [h2, hdrop]⟩
  simp only [readBytes, h1, htake]
  simp [fill_of_length hlen]

theorem Uint16_PutUint16 (v : Nat) (h : v < 65536) : Uint16 (PutUint16 v) = v := by
  simp only [Uint16, PutUint16, byteOf, List.getD_cons_zero, List.getD_cons_succ]
  omega

theorem Uint32_PutUint32 (v : Nat) (h : v < 4294967296) : Uint32 (PutUint32 v) = v := by
  simp only [Uint32, PutUint32, byteOf, List.getD_cons_zero, List.getD_cons_succ]
  omega

theorem readPayload_deliver {σ : Type} {reader : Reader σ} {rest : σ → List Byte}
    (hfull : DeliversInFull reader rest) (s : σ) (payload : ByteSlice)
    (hlen : len payload ≤ maxPayloadLength)
    (hs : rest s = PutUint32 (len payload % 4294967296) ++ data payload) :
    ∃ s', readPayload reader s = (Except.ok (readBack payload), s') ∧ rest s' = [] := by
  have hv : len payload % 4294967296 = len payload :=
    Nat.mod_eq_of_lt (by unfold maxPayloadLength at hlen; omega)
  obtain ⟨s1, h1, hr1⟩ := readBytes_deliver hfull s 4 (PutUint32 (len payload % 4294967296))
    (data payload) (by decide) rfl hs
  have hu : Uint32 (PutUint32 (len payload % 4294967296)) = len payload := by
    rw [hv]
    exact Uint32_PutUint32 _ (by unfold maxPayloadLength at hlen; omega)
  unfold readPayload
  simp only [contentLengthBytesCount, h1, hu]
  by_cases h0 : len payload = 0
  · refine ⟨s1, ?_, ?_⟩
    · simp [h0, readBack]
    · rw [hr1]
      exact List.eq_nil_of_length_eq_zero h0
  · obtain ⟨s2, h2, hr2⟩ := readBytes_deliver hfull s1 (len payload) (data payload) []
      (by omega) rfl (by rw [hr1, List.append_nil])
    refine ⟨s2, ?_, hr2⟩
    have hpos : len payload > 0 := by omega
    rw [if_pos hpos, h2]
    cases payload with
    | none => exact absurd rfl h0
    | some l => simp [readBack, h0, data]

/-- C13: codec round trip. For a request and a response whose payloads have at most `2^32 - 1`
bytes, if the bytes handed to the writer by `WriteRequest` / `WriteResponse` are what a
reader that delivers each requested field in full has to offer, then `ReadRequest` /
`ReadResponse` returns without error a message with the same type (status), resource id and
payload, an empty payload being read back as the nil slice, and nothing is left unread. -/
theorem Read_Write_roundtrip {σ : Type} (writer : Writer) (reader : Reader σ)
    (rest : σ → List Byte) (s s' : σ) (req : Request) (res : Response)
    (hreq : len req.Payload ≤ maxPayloadLength) (hres : len res.Payload ≤ maxPayloadLength)
    (hfull : DeliversInFull reader rest)
    (hs : (WriteRequest writer req).calls = [rest s])
    (hs' : (WriteResponse writer res).calls = [rest s']) :
    ((ReadRequest reader s).1 = Except.ok { req with Payload := readBack req.Payload }
        ∧ rest (ReadRequest reader s).2 = [])
      ∧ ((ReadResponse reader s').1 = Except.ok { res with Payload := readBack res.Payload }
        ∧ rest (ReadResponse reader s').2 = []) := by
  constructor
  · have hframe : rest s = [req.Typ] ++ (PutUint16 req.ResourceID.val
        ++ (PutUint32 (len req.Payload % 4294967296) ++ data req.Payload)) := by
      have h := hs
      unfold WriteRequest at h
      rw [if_neg (Nat.not_lt.mpr hreq)] at h
      simp only [writeAndWrapErr_calls, List.cons.injEq, and_true] at h
      rw [← h]
      simp
    obtain ⟨s1, h1, hr1⟩ := readBytes_deliver hfull s 1 [req.Typ] _ (by decide) rfl hframe
    obtain ⟨s2, h2, hr2⟩ := readBytes_deliver hfull s1 2 (PutUint16 req.ResourceID.val) _
      (by decide) rfl hr1
    obtain ⟨s3, h3, hr3⟩ := readPayload_deliver hfull s2 req.Payload hreq hr2
    have hid : (Fin.ofNat (Uint16 (PutUint16 req.ResourceID.val)) : ResourceIDType)
        = req.ResourceID := by
      rw [Uint16_PutUint16 _ req.ResourceID.isLt]
      exact Fin.ext (Nat.mod_eq_of_lt req.ResourceID.isLt)
    unfold ReadRequest readResourceID
    simp only [actionBytesCount, resourceIDBytesCount, h1, h2, h3, hid]
    exact ⟨rfl, hr3⟩
  · have hframe : rest s' = [res.Status]
        ++ (PutUint32 (len res.Payload % 4294967296) ++ data res.Payload) := by
      have h := hs'
      unfold WriteResponse at h
      rw [if_neg (Nat.not_lt.mpr hres)] at h
      simp only [writeAndWrapErr_calls, List.cons.injEq, and_true] at h
      rw [← h]
      simp
    obtain ⟨s1, h1, hr1⟩ := readBytes_deliver hfull s' 1 [res.Status] _ (by decide) rfl hframe
    obtain ⟨s2, h2, hr2⟩ := readPayload_deliver hfull s1 res.Payload hres hr1
    unfold ReadResponse
    simp only [statusBytesCount, h1, h2]
    exact ⟨rfl, hr2⟩

/-- The reader `bytes.NewReader(b)` delivers each requested field in full. -/
theorem bytesReader_deliversInFull : DeliversInFull bytesReader id := by
  intro s k hk hle
  simp only [id] at hle ⊢
  have hne : s ≠ [] := by
    intro h
    rw [h] at hle
    simp at hle
    omega
  simp only [bytesReader, if_neg hne, true_and]
  simp [List.length_take, Nat.min_eq_left hle]

/-- C13, witness: the request `(Challenge, id 513, "some payload")` and the response `(OK,
empty payload)` read back from `bytes.NewReader` of what was written. -/
theorem Read_Write_roundtrip_witness :
    (ReadRequest bytesReader (requestFrame
        { Typ := RequestTypeChallenge, ResourceID := 513, Payload := some somePayload })).1
      = Except.ok { Typ := RequestTypeChallenge, ResourceID := 513,
                    Payload := some somePayload }
    ∧ (ReadResponse bytesReader (responseFrame { Status := StatusOK, Payload := some [] })).1
      = Except.ok { Status := StatusOK, Payload := none } :=
  have h := Read_Write_roundtrip (fun _ => (1, none)) bytesReader id
    (requestFrame { Typ := RequestTypeChallenge, ResourceID := 513,
                    Payload := some somePayload })
    (responseFrame { Status := StatusOK, Payload := some [] })
    { Typ := RequestTypeChallenge, ResourceID := 513, Payload := some somePayload }
    { Status := StatusOK, Payload := some [] } (by decide) (by decide)
    bytesReader_deliversInFull
    (Write_single_frame _ _ { Status := StatusOK, Payload := none } (by decide)
      (by decide)).1
    (Write_single_frame _ { Typ := 0, ResourceID := 0, Payload := none } _ (by decide)
      (by decide)).2
  ⟨h.1.1, h.2.1⟩

/-- C14: for a request and a response whose payloads are longer than `2^32 - 1` bytes,
`WriteRequest` and `WriteResponse` return an error that is `ErrInvalidPayloadLength` and make
no `Write` call. -/
theorem Write_oversized (writer : Writer) (req : Request) (res : Response)
    (hreq : len req.Payload > maxPayloadLength) (hres : len res.Payload > maxPayloadLength) :
    ((WriteRequest writer req).calls = []
        ∧ ∃ e, (WriteRequest writer req).err = some e
          ∧ e.Is Sentinel.ErrInvalidPayloadLength = true)
      ∧ ((WriteResponse writer res).calls = []
        ∧ ∃ e, (WriteResponse writer res).err = some e
          ∧ e.Is Sentinel.ErrInvalidPayloadLength = true) := by
  unfold WriteRequest WriteResponse
  simp [hreq, hres, Error.Is]

theorem len_replicate (n : Nat) (b : Byte) : len (some (List.replicate n b)) = n := by
  simp [len, data]

/-- C14, witness: the test cases "overflow payload", a payload of `maxPayloadLength + 1` zero
bytes. -/
theorem Write_oversized_witness :
    (WriteRequest (fun _ => (1, none))
        { Typ := RequestTypeResource, ResourceID := 0,
          Payload := some (List.replicate (maxPayloadLength + 1) 0) }).calls = []
      ∧ (WriteResponse (fun _ => (1, none))
        { Status := StatusOK,
          Payload := some (List.replicate (maxPayloadLength + 1) 0) }).calls = [] :=
  have h := Write_oversized (fun _ => (1, none))
    { Typ := RequestTypeResource, ResourceID := 0,
      Payload := some (List.replicate (maxPayloadLength + 1) 0) }
    { Status := StatusOK, Payload := some (List.replicate (maxPayloadLength + 1) 0) }
    (by rw [len_replicate]; exact Nat.lt_succ_self _)
    (by rw [len_replicate]; exact Nat.lt_succ_self _)
  ⟨h.1.1, h.2.1⟩

/-- C15: for a request and a response whose payloads have at most `2^32 - 1` bytes, the result
of `WriteRequest` / `WriteResponse` is decided by what the one `Write` call returns as `(n,
err)`: an `err` that is `EPIPE` gives an error that is `ErrConnectionClosed`; any other `err`
is returned unchanged; `err = nil` with `n = 0` gives `ErrZeroBytesWritten`; `err = nil` with
`n >= 1` gives success, whatever `n` is relative to the length of the frame. -/
theorem Write_result_of_answer (writer : Writer) (req : Request) (res : Response)
    (hreq : len req.Payload ≤ maxPayloadLength) (hres : len res.Payload ≤ maxPayloadLength) :
    WriteContract (writer (requestFrame req)) (WriteRequest writer req).err
      ∧ WriteContract (writer (responseFrame res)) (WriteResponse writer res).err := by
  have key : ∀ p, WriteContract (writer p) (writeAndWrapErr writer p).err := by
    intro p
    unfold WriteContract writeAndWrapErr
    generalize writer p = r
    rcases r with ⟨n, _ | err⟩
    · refine ⟨by simp, by simp, ?_, ?_⟩
      · intro _ h0
        simp only at h0
        simp [h0]
      · intro _ h1
        simp only at h1
        have hn : n ≠ 0 := by omega
        simp [hn]
    · refine ⟨?_, ?_, by simp, by simp⟩
      · intro x hx hp
        simp only [Option.some.injEq] at hx
        subst hx
        exact ⟨_, rfl, by simp [wrapWriteErr, hp, Error.Is]⟩
      · intro x hx hp
        simp only [Option.some.injEq] at hx
        subst hx
        simp [wrapWriteErr, hp]
  rw [WriteRequest_eq writer req hreq, WriteResponse_eq writer res hres]
  exact ⟨key _, key _⟩

/-- C15, witness: the test cases "with payload" (the writer returns `(1, nil)` for the 19-byte
frame: success), "zero bytes write" and "err broken pipe". -/
theorem Write_result_of_answer_witness :
    (WriteRequest (fun _ => (1, none))
        { Typ := RequestTypeResource, ResourceID := 0, Payload := some somePayload }).err
      = none
    ∧ (WriteResponse (fun _ => (0, none))
        { Status := StatusOK, Payload := some somePayload }).err
      = some (Error.sentinel Sentinel.ErrZeroBytesWritten)
    ∧ ∃ e, (WriteRequest (fun _ => (0, some (IOError.base IOKind.EPIPE)))
        { Typ := RequestTypeResource, ResourceID := 0, Payload := some somePayload }).err
          = some e ∧ e.Is Sentinel.ErrConnectionClosed = true :=
  ⟨(Write_result_of_answer (fun _ => (1, none))
      { Typ := RequestTypeResource, ResourceID := 0, Payload := some somePayload }
      { Status := StatusOK, Payload := none } (by decide) (by decide)).1.2.2.2 rfl
      (by decide),
    (Write_result_of_answer (fun _ => (0, none))
      { Typ := RequestTypeResource, ResourceID := 0, Payload := none }
      { Status := StatusOK, Payload := some somePayload } (by decide) (by decide)).2.2.2.1 rfl
      rfl,
    (Write_result_of_answer (fun _ => (0, some (IOError.base IOKind.EPIPE)))
      { Typ := RequestTypeResource, ResourceID := 0, Payload := some somePayload }
      { Status := StatusOK, Payload := none } (by decide) (by decide)).1.1 _ rfl rfl⟩

theorem readBytes_of_failed {σ : Type} (reader : Reader σ) (s s' : σ) (needRead : Nat)
    (o : ReadOutcome) (h : reader.Read s needRead = (o, s')) (hf : Failed o needRead) :
    ∃ e, readBytes reader s needRead = (Except.error e, s')
      ∧ (∀ x, o.err = some x → e = wrapReadErr x)
      ∧ (o.err = none → e = Error.invalidBytesCount o.n) := by
  unfold readBytes
  rw [h]
  cases herr : o.err with
  | none =>
    have hn : o.n ≠ (needRead : Int) := by
      rcases hf with hf | hf
      · exact absurd herr hf
      · exact hf
    exact ⟨Error.invalidBytesCount o.n, by simp [herr, hn], by simp, fun _ => rfl⟩
  | some x =>
    exact ⟨wrapReadErr x, by simp [herr], by simp, by simp⟩

theorem readBytes_of_not_failed {σ : Type} (reader : Reader σ) (s s' : σ) (needRead : Nat)
    (o : ReadOutcome) (h : reader.Read s needRead = (o, s')) (hf : ¬ Failed o needRead) :
    readBytes reader s needRead = (Except.ok (fill needRead o.written), s') := by
  unfold Failed at hf
  have herr : o.err = none := by
    cases he : o.err with
    | none => rfl
    | some x => exact absurd (Or.inl (by simp [he])) hf
  have hn : o.n = (needRead : Int) := by
    by_contra hne
    exact hf (Or.inr hne)
  unfold readBytes
  rw [h]
  simp [herr, hn]

/-- The contract of a failed `Read` call holds of an error that matches the field sentinel and
whatever the error of `readBytes` matches. -/
theorem ReadContract_of_Is {o : ReadOutcome} {k : Nat} {field : Sentinel} {e0 e : Error}
    (hsome : ∀ x, o.err = some x → e0 = wrapReadErr x)
    (hnone : o.err = none → e0 = Error.invalidBytesCount o.n)
    (hIs : ∀ t, e.Is t = (decide (field = t) || e0.Is t)) :
    ReadContract o k field e := by
  unfold ReadContract
  refine ⟨?_, ?_, ?_, ?_⟩
  · intro herr _ t
    rw [hIs t, hnone herr]
    simp only [Error.Is, Bool.or_eq_true, decide_eq_true_eq]
    rw [@eq_comm _ field t]
  · intro x hx hd t
    rw [hIs t, hsome x hx]
    simp only [wrapReadErr, hd, if_true, Error.Is, Bool.or_eq_true, decide_eq_true_eq]
    rw [@eq_comm _ field t, @eq_comm _ Sentinel.ErrDeadlineExceeded t]
  · intro x hx hd hc t
    have hor : (x.Is IOKind.ErrClosed || x.Is IOKind.EOF || x.Is IOKind.ECONNRESET)
        = true := by
      rcases hc with hc | hc | hc <;> simp [hc]
    rw [hIs t, hsome x hx]
    simp only [wrapReadErr, hd, hor, if_true, Bool.false_eq_true, if_false, Error.Is,
      Bool.or_eq_true, decide_eq_true_eq]
    rw [@eq_comm _ field t, @eq_comm _ Sentinel.ErrConnectionClosed t]
  · intro x hx h1 h2 h3 h4 t
    rw [hIs t, hsome x hx]
    simp only [wrapReadErr, h1, h2, h3, h4, Bool.or_self, Bool.false_eq_true, if_false,
      Error.Is, Bool.or_eq_true, decide_eq_true_eq]
    rw [@eq_comm _ field t]

/-- C16, counterexample: a `Read` call that returns `errors.Join(os.ErrDeadlineExceeded,
io.EOF)`, an error that is `io.EOF`, makes `ReadRequest` fail with an error that is
`ErrDeadlineExceeded` and not `ErrConnectionClosed`, the deadline being looked for first; and a
`Read` call that returns the package's own `ErrDeadlineExceeded`, which is none of the four
values `wrapReadErr` looks for, makes it fail with an error that is `ErrDeadlineExceeded`, the
error being returned as it is. -/
theorem Read_deadline_looked_for_first :
    deadlineAndEOF.Is IOKind.EOF = true
      ∧ (ReadRequest scripted [{ written := [], n := 0, err := some deadlineAndEOF }]).1
        = Except.error (Error.wrap2 (Error.sentinel Sentinel.ErrReadAction)
            (Error.wrap2 (Error.sentinel Sentinel.ErrDeadlineExceeded)
              (Error.external deadlineAndEOF)))
      ∧ (Error.wrap2 (Error.sentinel Sentinel.ErrReadAction)
            (Error.wrap2 (Error.sentinel Sentinel.ErrDeadlineExceeded)
              (Error.external deadlineAndEOF))).Is Sentinel.ErrConnectionClosed = false
      ∧ (Error.wrap2 (Error.sentinel Sentinel.ErrReadAction)
            (Error.wrap2 (Error.sentinel Sentinel.ErrDeadlineExceeded)
              (Error.external deadlineAndEOF))).Is Sentinel.ErrDeadlineExceeded = true
      ∧ (IOError.sentinel Sentinel.ErrDeadlineExceeded).Is IOKind.ErrDeadlineExceeded = false
      ∧ (IOError.sentinel Sentinel.ErrDeadlineExceeded).Is IOKind.ErrClosed = false
      ∧ (IOError.sentinel Sentinel.ErrDeadlineExceeded).Is IOKind.EOF = false
      ∧ (IOError.sentinel Sentinel.ErrDeadlineExceeded).Is IOKind.ECONNRESET = false
      ∧ (ReadRequest scripted
          [{ written := [], n := 0,
             err := some (IOError.sentinel Sentinel.ErrDeadlineExceeded) }]).1
        = Except.error (Error.wrap2 (Error.sentinel Sentinel.ErrReadAction)
            (Error.external (IOError.sentinel Sentinel.ErrDeadlineExceeded)))
      ∧ (Error.wrap2 (Error.sentinel Sentinel.ErrReadAction)
            (Error.external (IOError.sentinel Sentinel.ErrDeadlineExceeded))).Is
          Sentinel.ErrDeadlineExceeded = true := by
  decide

/-- C16, amended: `ReadRequest` and `ReadResponse` fail, returning no message, as soon as a
field's `Read` call fails, and the error tells how and where. With the `Read` calls named in
order (`o1` for the action or status byte, then for a request `o2` for the resource id, `o3`
for the length and `o4` for the payload, for a response `p2` for the length and `p3` for the
payload): for the first call that fails, the returned error is `ErrReadAction` /
`ErrReadStatus`, `ErrReadResourceID` or `ErrReadPayload` according to the field; it is
`ErrInvalidBytesCount` when the call returned a wrong count without error,
`ErrDeadlineExceeded` when it returned a deadline-exceeded error, `ErrConnectionClosed` when
it returned an EOF, use-of-closed-connection or connection-reset error that is not a
deadline-exceeded error (whatever count the call reports); and it is no other sentinel of the
package than these, except those the error of the `Read` call itself already is. -/
theorem Read_failure_kinds {σ : Type} (reader : Reader σ) (s s1 s2 s3 s4 t2 t3 : σ)
    (o1 o2 o3 o4 p2 p3 : ReadOutcome)
    (h1 : reader.Read s 1 = (o1, s1)) (h2 : reader.Read s1 2 = (o2, s2))
    (h3 : reader.Read s2 4 = (o3, s3))
    (h4 : reader.Read s3 (Uint32 (fill 4 o3.written)) = (o4, s4))
    (g2 : reader.Read s1 4 = (p2, t2))
    (g3 : reader.Read t2 (Uint32 (fill 4 p2.written)) = (p3, t3)) :
    ((Failed o1 1 → ∃ e, ReadRequest reader s = (Except.error e, s1)
          ∧ ReadContract o1 1 Sentinel.ErrReadAction e)
      ∧ (¬ Failed o1 1 → Failed o2 2 → ∃ e, ReadRequest reader s = (Except.error e, s2)
          ∧ ReadContract o2 2 Sentinel.ErrReadResourceID e)
      ∧ (¬ Failed o1 1 → ¬ Failed o2 2 → Failed o3 4 →
          ∃ e, ReadRequest reader s = (Except.error e, s3)
            ∧ ReadContract o3 4 Sentinel.ErrReadPayload e)
      ∧ (¬ Failed o1 1 → ¬ Failed o2 2 → ¬ Failed o3 4 → 0 < Uint32 (fill 4 o3.written) →
          Failed o4 (Uint32 (fill 4 o3.written)) →
          ∃ e, ReadRequest reader s = (Except.error e, s4)
            ∧ ReadContract o4 (Uint32 (fill 4 o3.written)) Sentinel.ErrReadPayload e))
    ∧ ((Failed o1 1 → ∃ e, ReadResponse reader s = (Except.error e, s1)
          ∧ ReadContract o1 1 Sentinel.ErrReadStatus e)
      ∧ (¬ Failed o1 1 → Failed p2 4 → ∃ e, ReadResponse reader s = (Except.error e, t2)
          ∧ ReadContract p2 4 Sentinel.ErrReadPayload e)
      ∧ (¬ Failed o1 1 → ¬ Failed p2 4 → 0 < Uint32 (fill 4 p2.written) →
          Failed p3 (Uint32 (fill 4 p2.written)) →
          ∃ e, ReadResponse reader s = (Except.error e, t3)
            ∧ ReadContract p3 (Uint32 (fill 4 p2.written)) Sentinel.ErrReadPayload e)) := by
  refine ⟨⟨?_, ?_, ?_, ?_⟩, ⟨?_, ?_, ?_⟩⟩
  · intro f1
    obtain ⟨e, he, hs, hn⟩ := readBytes_of_failed reader s s1 1 o1 h1 f1
    refine ⟨Error.wrap2 (Error.sentinel Sentinel.ErrReadAction) e, ?_,
      ReadContract_of_Is hs hn (fun _ => rfl)⟩
    simp only [ReadRequest, actionBytesCount, he]
  · intro f1 f2
    have e1 := readBytes_of_not_failed reader s s1 1 o1 h1 f1
    obtain ⟨e, he, hs, hn⟩ := readBytes_of_failed reader s1 s2 2 o2 h2 f2
    refine ⟨Error.wrap2 (Error.sentinel Sentinel.ErrReadResourceID) (Error.wrap e), ?_,
      ReadContract_of_Is hs hn (fun _ => rfl)⟩
    simp only [ReadRequest, readResourceID, actionBytesCount, resourceIDBytesCount, e1, he]
  · intro f1 f2 f3
    have e1 := readBytes_of_not_failed reader s s1 1 o1 h1 f1
    have e2 := readBytes_of_not_failed reader s1 s2 2 o2 h2 f2
    obtain ⟨e, he, hs, hn⟩ := readBytes_of_failed reader s2 s3 4 o3 h3 f3
    refine ⟨Error.wrap2 (Error.sentinel Sentinel.ErrReadPayload) (Error.wrap e), ?_,
      ReadContract_of_Is hs hn (fun _ => rfl)⟩
    simp only [ReadRequest, readResourceID, readPayload, actionBytesCount,
      resourceIDBytesCount, contentLengthBytesCount, e1, e2, he]
  · intro f1 f2 f3 hpos f4
    have e1 := readBytes_of_not_failed reader s s1 1 o1 h1 f1
    have e2 := readBytes_of_not_failed reader s1 s2 2 o2 h2 f2
    have e3 := readBytes_of_not_failed reader s2 s3 4 o3 h3 f3
    obtain ⟨e, he, hs, hn⟩ := readBytes_of_failed reader s3 s4 _ o4 h4 f4
    refine ⟨Error.wrap2 (Error.sentinel Sentinel.ErrReadPayload) (Error.wrap e), ?_,
      ReadContract_of_Is hs hn (fun _ => rfl)⟩
    simp only [ReadRequest, readResourceID, readPayload, actionBytesCount,
      resourceIDBytesCount, contentLengthBytesCount, e1, e2, e3, he, if_pos hpos]
  · intro f1
    obtain ⟨e, he, hs, hn⟩ := readBytes_of_failed reader s s1 1 o1 h1 f1
    refine ⟨Error.wrap2 (Error.sentinel Sentinel.ErrReadStatus) e, ?_,
      ReadContract_of_Is hs hn (fun _ => rfl)⟩
    simp only [ReadResponse, statusBytesCount, he]
  · intro f1 f2
    have e1 := readBytes_of_not_failed reader s s1 1 o1 h1 f1
    obtain ⟨e, he, hs, hn⟩ := readBytes_of_failed reader s1 t2 4 p2 g2 f2
    refine ⟨Error.wrap2 (Error.sentinel Sentinel.ErrReadPayload) (Error.wrap e), ?_,
      ReadContract_of_Is hs hn (fun _ => rfl)⟩
    simp only [ReadResponse, readPayload, statusBytesCount, contentLengthBytesCount, e1, he]
  · intro f1 f2 hpos f3
    have e1 := readBytes_of_not_failed reader s s1 1 o1 h1 f1
    have e2 := readBytes_of_not_failed reader s1 t2 4 p2 g2 f2
    obtain ⟨e, he, hs, hn⟩ := readBytes_of_failed reader t2 t3 _ p3 g3 f3
    refine ⟨Error.wrap2 (Error.sentinel Sentinel.ErrReadPayload) (Error.wrap e), ?_,
      ReadContract_of_Is hs hn (fun _ => rfl)⟩
    simp only [ReadResponse, readPayload, statusBytesCount, contentLengthBytesCount, e1, e2,
      he, if_pos hpos]

/-- C16, witness: the test case "err io.EOF", where the first `Read` call returns `(1,
io.EOF)`: `ReadRequest` fails with an error that is `ErrReadAction` and
`ErrConnectionClosed`, and neither `ErrDeadlineExceeded` nor `ErrReadPayload`. -/
theorem Read_failure_kinds_witness :
    ∃ e, ReadRequest scripted [{ written := [], n := 1, err := some (IOError.base IOKind.EOF) }]
        = (Except.error e, [])
      ∧ e.Is Sentinel.ErrReadAction = true ∧ e.Is Sentinel.ErrConnectionClosed = true
      ∧ ¬ e.Is Sentinel.ErrDeadlineExceeded = true ∧ ¬ e.Is Sentinel.ErrReadPayload = true :=
  have h := (Read_failure_kinds scripted
    [{ written := [], n := 1, err := some (IOError.base IOKind.EOF) }] [] [] [] [] [] []
    { written := [], n := 1, err := some (IOError.base IOKind.EOF) }
    { written := [], n := 0, err := some (IOError.base IOKind.EOF) }
    { written := [], n := 0, err := some (IOError.base IOKind.EOF) }
    { written := [], n := 0, err := some (IOError.base IOKind.EOF) }
    { written := [], n := 0, err := some (IOError.base IOKind.EOF) }
    { written := [], n := 0, err := some (IOError.base IOKind.EOF) }
    rfl rfl rfl rfl rfl rfl).1.1 (Or.inl (by simp))
  h.elim (fun e he =>
    have hc := he.2.2.2.1 (IOError.base IOKind.EOF) rfl rfl (Or.inr (Or.inl rfl))
    ⟨e, he.1, (hc Sentinel.ErrReadAction).mpr (Or.inl rfl),
      (hc Sentinel.ErrConnectionClosed).mpr (Or.inr (Or.inl rfl)),
      fun hd => ((hc Sentinel.ErrDeadlineExceeded).mp hd).elim (by decide)
        (fun hd' => hd'.elim (by decide) (by decide)),
      fun hp => ((hc Sentinel.ErrReadPayload).mp hp).elim (by decide)
        (fun hp' => hp'.elim (by decide) (by decide))⟩)

end proto

/-! # Claims on the connection engine -/

namespace server

open pow (Byte Challenge Context)
open proto (Request Response ResourceIDType)

theorem Cache.Get_eq_true {cache : Cache} {key : List Byte} :
    cache.Get key = true ↔ key ∈ cache := by
  simp [Cache.Get]

theorem Cache.Get_eq_false {cache : Cache} {key : List Byte} :
    cache.Get key = false ↔ key ∉ cache := by
  simp [Cache.Get]

theorem Cache.not_mem_Delete (cache : Cache) (key : List Byte) : key ∉ cache.Delete key := by
  simp [Cache.Delete]

theorem negDuration_eq {d : Int}
    (h : -9223372036854775808 < d ∧ d ≤ 9223372036854775807) : negDuration d = -d := by
  unfold negDuration pow.wrapInt64
  omega

/-- For a timeout other than the least `int64`, the instant the freshness check compares with
is `now - challenge_timeout`. -/
theorem cutoff_eq (s : Server) (now : Int)
    (h : -9223372036854775808 < s.challengeTimeout
      ∧ s.challengeTimeout ≤ 9223372036854775807) :
    Time.Add now (negDuration s.challengeTimeout) = now - s.challengeTimeout := by
  rw [negDuration_eq h]
  unfold Time.Add
  omega

/-- C17: for a Resource request whose payload parses as a challenge, on a server with a cache,
the response of `handleResourceRequest` is fixed by the first failing check in the order
(1) rand present in the cache, (2) `VerifySign(secret)`, (3) unix not before the second of
`now - challenge_timeout`, (4) `VerifyNonce`, (5) a handler registered for the resource id: it
is the Err response with text `challenge not found`, `invalid sign: ` followed by the error of
`VerifySign`, `challenge was expired`, `invalid nonce: ` followed by the error of
`VerifyNonce`, `handler not found` respectively, whatever the later checks would say. The
timeout is any `time.Duration` but the least `int64`, the one value whose negation wraps. -/
theorem handleResourceRequest_first_failing_check (codec : Codec) (s : Server) (now : Int)
    (ctx : Context) (request : Request) (c : Challenge) (cache : Cache)
    (hcache : s.cache = some cache)
    (hparse : codec.decode (proto.data request.Payload) = some c)
    (htimeout : -9223372036854775808 < s.challengeTimeout
      ∧ s.challengeTimeout ≤ 9223372036854775807) :
    (c.Rand ∉ cache →
        (s.handleResourceRequest codec now ctx request).response
          = Except.ok (proto.ErrorResponse (pow.ascii "challenge not found")))
      ∧ (c.Rand ∈ cache → ∀ e, c.VerifySign s.secret = some e →
        (s.handleResourceRequest codec now ctx request).response
          = Except.ok (proto.ErrorResponse (pow.ascii "invalid sign: " ++ e.Error)))
      ∧ (c.Rand ∈ cache → c.VerifySign s.secret = none →
        c.UnixTimestamp < Unix (now - s.challengeTimeout) →
        (s.handleResourceRequest codec now ctx request).response
          = Except.ok (proto.ErrorResponse (pow.ascii "challenge was expired")))
      ∧ (c.Rand ∈ cache → c.VerifySign s.secret = none →
        ¬ c.UnixTimestamp < Unix (now - s.challengeTimeout) →
        ∀ e, c.VerifyNonce.1 = some e →
        (s.handleResourceRequest codec now ctx request).response
          = Except.ok (proto.ErrorResponse (pow.ascii "invalid nonce: " ++ e.Error)))
      ∧ (c.Rand ∈ cache → c.VerifySign s.secret = none →
        ¬ c.UnixTimestamp < Unix (now - s.challengeTimeout) →
        c.VerifyNonce.1 = none → s.handlers request.ResourceID = none →
        (s.handleResourceRequest codec now ctx request).response
          = Except.ok (proto.ErrorResponse (pow.ascii "handler not found"))) := by
  have hcut := cutoff_eq s now htimeout
  refine ⟨?_, ?_, ?_, ?_, ?_⟩
  · intro hin
    simp [Server.handleResourceRequest, hparse, hcache, Cache.Get_eq_false.mpr hin,
      errChallengeNotFound]
  · intro hin e hsig
    simp [Server.handleResourceRequest, hparse, hcache, Cache.Get_eq_true.mpr hin, hsig]
  · intro hin hsig hexp
    simp [Server.handleResourceRequest, hparse, hcache, Cache.Get_eq_true.mpr hin, hsig, hcut, hexp,
      errChallengeWasExpired]
  · intro hin hsig hexp e hnonce
    simp [Server.handleResourceRequest, hparse, hcache, Cache.Get_eq_true.mpr hin, hsig, hcut, hexp,
      hnonce]
  · intro hin hsig hexp hnonce hh
    simp [Server.handleResourceRequest, hparse, hcache, Cache.Get_eq_true.mpr hin, hsig, hcut, hexp,
      hnonce, hh, errHandlerNotFound]

/-- C17, witness: on the example server (timeout 400 ms) at instant 100.2 s, one request for
each check that fails first. A solved challenge whose rand is not in the cache; a challenge
with a foreign signature; the solved challenge checked at instant 102 s; the challenge with the
wrong nonce 1; the solved challenge asking for resource 1, which has no handler. -/
theorem handleResourceRequest_first_failing_check_witness :
    ((exampleServer []).handleResourceRequest (codecOf solved) 100200000000 pow.background
        (resourceRequest 0)).response
        = Except.ok (proto.ErrorResponse (pow.ascii "challenge not found"))
      ∧ ((exampleServer [pow.testRand]).handleResourceRequest
          (codecOf { solved with Signature := [1] }) 100200000000 pow.background
          (resourceRequest 0)).response
        = Except.ok (proto.ErrorResponse
            (pow.ascii "invalid sign: " ++ (pow.Error.invalidSignature [1]).Error))
      ∧ ((exampleServer [pow.testRand]).handleResourceRequest (codecOf solved) 102000000000
          pow.background (resourceRequest 0)).response
        = Except.ok (proto.ErrorResponse (pow.ascii "challenge was expired"))
      ∧ ((exampleServer [pow.testRand]).handleResourceRequest
          (codecOf { solved with Nonce := 1 }) 100200000000 pow.background
          (resourceRequest 0)).response
        = Except.ok (proto.ErrorResponse
            (pow.ascii "invalid nonce: " ++ (pow.Error.invalidNonce 1).Error))
      ∧ ((exampleServer [pow.testRand]).handleResourceRequest (codecOf solved) 100200000000
          pow.background (resourceRequest 1)).response
        = Except.ok (proto.ErrorResponse (pow.ascii "handler not found")) :=
  ⟨(handleResourceRequest_first_failing_check (codecOf solved) (exampleServer [])
      100200000000 pow.background (resourceRequest 0) solved [] rfl rfl (by decide)).1
      (by decide),
    (handleResourceRequest_first_failing_check (codecOf { solved with Signature := [1] })
      (exampleServer [pow.testRand]) 100200000000 pow.background (resourceRequest 0)
      { solved with Signature := [1] } [pow.testRand] rfl rfl (by decide)).2.1
      (by decide) (pow.Error.invalidSignature [1]) (by decide),
    (handleResourceRequest_first_failing_check (codecOf solved) (exampleServer [pow.testRand])
      102000000000 pow.background (resourceRequest 0) solved [pow.testRand] rfl rfl
      (by decide)).2.2.1 (by decide) (by decide) (by decide),
    (handleResourceRequest_first_failing_check (codecOf { solved with Nonce := 1 })
      (exampleServer [pow.testRand]) 100200000000 pow.background (resourceRequest 0)
      { solved with Nonce := 1 } [pow.testRand] rfl rfl (by decide)).2.2.2.1
      (by decide) (by decide) (by decide) (pow.Error.invalidNonce 1) (by decide),
    (handleResourceRequest_first_failing_check (codecOf solved) (exampleServer [pow.testRand])
      100200000000 pow.background (resourceRequest 1) solved [pow.testRand] rfl rfl
      (by decide)).2.2.2.2 (by decide) (by decide) (by decide) (by decide) rfl⟩

/-- C18: on a server with a cache, `handleResourceRequest` calls a handler only if the payload
parses as a challenge whose rand was in the cache, whose signature verifies under the server
secret, whose unix is not before the second of `now - challenge_timeout` and whose nonce passes
`VerifyNonce`; the handler called is the one registered for the resource id, and the response
is OK with exactly the handler's bytes if it succeeds and Err with exactly the handler's error
text if it fails. The timeout is any `time.Duration` but the least `int64`, the one value whose
negation wraps. -/
theorem handler_invoked_only_if_admitted (codec : Codec) (s : Server) (now : Int)
    (ctx : Context) (request : Request) (cache : Cache) (hcache : s.cache = some cache)
    (htimeout : -9223372036854775808 < s.challengeTimeout
      ∧ s.challengeTimeout ≤ 9223372036854775807)
    (hinv : (s.handleResourceRequest codec now ctx request).invoked = true) :
    ∃ c, codec.decode (proto.data request.Payload) = some c
      ∧ c.Rand ∈ cache
      ∧ c.VerifySign s.secret = none
      ∧ ¬ c.UnixTimestamp < Unix (now - s.challengeTimeout)
      ∧ c.VerifyNonce.1 = none
      ∧ ∃ h, s.handlers request.ResourceID = some h
        ∧ (∀ data, h ctx = Except.ok data →
            (s.handleResourceRequest codec now ctx request).response
              = Except.ok (proto.OkResponse data))
        ∧ (∀ err, h ctx = Except.error err →
            (s.handleResourceRequest codec now ctx request).response
              = Except.ok (proto.ErrorResponse err)) := by
  have hcut := cutoff_eq s now htimeout
  cases hparse : codec.decode (proto.data request.Payload) with
  | none => simp [Server.handleResourceRequest, hparse] at hinv
  | some c =>
    refine ⟨c, rfl, ?_⟩
    by_cases hin : c.Rand ∈ cache
    swap
    · simp [Server.handleResourceRequest, hparse, hcache, Cache.Get_eq_false.mpr hin] at hinv
    cases hsig : c.VerifySign s.secret with
    | some e =>
      simp [Server.handleResourceRequest, hparse, hcache, Cache.Get_eq_true.mpr hin, hsig]
        at hinv
    | none =>
      by_cases hexp : c.UnixTimestamp < Unix (now - s.challengeTimeout)
      · simp [Server.handleResourceRequest, hparse, hcache, Cache.Get_eq_true.mpr hin, hsig,
          hcut, hexp] at hinv
      cases hnonce : c.VerifyNonce.1 with
      | some e =>
        simp [Server.handleResourceRequest, hparse, hcache, Cache.Get_eq_true.mpr hin, hsig,
          hcut, hexp, hnonce] at hinv
      | none =>
        cases hh : s.handlers request.ResourceID with
        | none =>
          simp [Server.handleResourceRequest, hparse, hcache, Cache.Get_eq_true.mpr hin, hsig,
            hcut, hexp, hnonce, hh] at hinv
        | some h =>
          refine ⟨hin, rfl, hexp, rfl, h, rfl, ?_, ?_⟩
          · intro data hd
            simp [Server.handleResourceRequest, hparse, hcache, Cache.Get_eq_true.mpr hin,
              hsig, hcut, hexp, hnonce, hh, hd]
          · intro err hd
            simp [Server.handleResourceRequest, hparse, hcache, Cache.Get_eq_true.mpr hin,
              hsig, hcut, hexp, hnonce, hh, hd]

/-- C18, witness: the solved challenge presented 200 ms after its second of issue, with its
rand in the cache, reaches the handler of resource 0. -/
theorem handler_invoked_only_if_admitted_witness :
    ((exampleServer [pow.testRand]).handleResourceRequest (codecOf solved) 100200000000
        pow.background (resourceRequest 0)).invoked = true
      ∧ ∃ c, (codecOf solved).decode (proto.data (resourceRequest 0).Payload) = some c
        ∧ c.Rand ∈ [pow.testRand]
        ∧ c.VerifySign (exampleServer [pow.testRand]).secret = none
        ∧ c.VerifyNonce.1 = none :=
  have hinv : ((exampleServer [pow.testRand]).handleResourceRequest (codecOf solved)
      100200000000 pow.background (resourceRequest 0)).invoked = true := by decide
  have h := handler_invoked_only_if_admitted (codecOf solved) (exampleServer [pow.testRand])
    100200000000 pow.background (resourceRequest 0) [pow.testRand] rfl (by decide) hinv
  ⟨hinv, h.elim (fun c hc => ⟨c, hc.1, hc.2.1, hc.2.2.1, hc.2.2.2.2.1⟩)⟩

/-- C19: single use. On a server with a cache, when a Resource request carrying a challenge
whose rand is in the cache, correctly signed, fresh (it passes the check `unix >=
time.Now().Add(-challenge_timeout).Unix()`) and solved, for a resource whose handler
succeeds, is processed, and then a second request carrying a challenge with the same rand is
processed on the cache the first call left (no challenge being issued in between), the first
receives the handler's OK response and the second the Err response `challenge not found`.
Two identical requests are a special case, whichever comes first. -/
theorem single_use (codec : Codec) (s : Server) (now now' : Int) (ctx ctx' : Context)
    (request request' : Request) (c c' : Challenge) (cache : Cache) (h : Handler)
    (data : proto.ByteSlice) (hcache : s.cache = some cache)
    (hparse : codec.decode (proto.data request.Payload) = some c)
    (hparse' : codec.decode (proto.data request'.Payload) = some c')
    (hrand : c'.Rand = c.Rand) (hin : c.Rand ∈ cache)
    (hsig : c.VerifySign s.secret = none)
    (hfresh : ¬ c.UnixTimestamp < Unix (Time.Add now (negDuration s.challengeTimeout)))
    (hnonce : c.VerifyNonce.1 = none) (hh : s.handlers request.ResourceID = some h)
    (hok : h ctx = Except.ok data) :
    (s.handleResourceRequest codec now ctx request).response
        = Except.ok (proto.OkResponse data)
      ∧ ({ s with cache := (s.handleResourceRequest codec now ctx request).cache
          }.handleResourceRequest codec now' ctx' request').response
        = Except.ok (proto.ErrorResponse (pow.ascii "challenge not found")) := by
  have h1 : (s.handleResourceRequest codec now ctx request).response
      = Except.ok (proto.OkResponse data) := by
    simp [Server.handleResourceRequest, hparse, hcache, Cache.Get_eq_true.mpr hin, hsig,
      hfresh, hnonce, hh, hok]
  have h2 : (s.handleResourceRequest codec now ctx request).cache
      = some (cache.Delete c.Rand) := by
    simp [Server.handleResourceRequest, hparse, hcache, Cache.Get_eq_true.mpr hin, hsig,
      hfresh, hnonce, hh, hok]
  refine ⟨h1, ?_⟩
  rw [h2]
  have hout : (cache.Delete c.Rand).Get c'.Rand = false := by
    rw [hrand]
    exact Cache.Get_eq_false.mpr (Cache.not_mem_Delete cache c.Rand)
  simp [Server.handleResourceRequest, hparse', hout, errChallengeNotFound]

/-- C19, witness: the solved challenge presented twice in a row. -/
theorem single_use_witness :
    ((exampleServer [pow.testRand]).handleResourceRequest (codecOf solved) 100200000000
        pow.background (resourceRequest 0)).response
        = Except.ok (proto.OkResponse (some (pow.ascii "quote")))
      ∧ ({ exampleServer [pow.testRand] with
            cache := ((exampleServer [pow.testRand]).handleResourceRequest (codecOf solved)
              100200000000 pow.background (resourceRequest 0)).cache
          }.handleResourceRequest (codecOf solved) 100300000000 pow.background
            (resourceRequest 0)).response
        = Except.ok (proto.ErrorResponse (pow.ascii "challenge not found")) :=
  single_use (codecOf solved) (exampleServer [pow.testRand]) 100200000000 100300000000
    pow.background pow.background (resourceRequest 0) (resourceRequest 0) solved solved
    [pow.testRand] quoteHandler (some (pow.ascii "quote")) rfl rfl rfl rfl (by decide)
    (by decide) (by decide) (by decide) rfl rfl

/-- C20, counterexample: timeout 400 ms, challenge issued at second 100 and checked at instant
100.5 s. The unix timestamp is less than `now - challenge_timeout` (100 s < 100.1 s) and
`now - unix` (500 ms) exceeds the timeout, yet the response is the handler's OK response, not
`challenge was expired`. -/
theorem freshness_within_the_second :
    solved.Rand ∈ [pow.testRand]
      ∧ solved.VerifySign (exampleServer [pow.testRand]).secret = none
      ∧ solved.UnixTimestamp * 1000000000
          < 100500000000 - (exampleServer [pow.testRand]).challengeTimeout
      ∧ ((exampleServer [pow.testRand]).handleResourceRequest (codecOf solved) 100500000000
          pow.background (resourceRequest 0)).response
        = Except.ok (proto.OkResponse (some (pow.ascii "quote")))
      ∧ ¬ (100500000000 - solved.UnixTimestamp * 1000000000
          ≤ (exampleServer [pow.testRand]).challengeTimeout) := by
  decide

/-- C20, amended: freshness is checked in whole seconds. For a Resource request whose
challenge rand is in the cache and whose signature verifies, if the unix timestamp is less
than the second of `now - challenge_timeout` (that is, if `unix + 1 s <= now -
challenge_timeout`), the response is the Err response `challenge was expired`; conversely a
challenge that reaches the handler satisfies `now - unix < challenge_timeout + 1 s`. Instants
and durations are in nanoseconds; the timeout is any `time.Duration` but the least `int64`,
the one value whose negation wraps. -/
theorem freshness_whole_seconds (codec : Codec) (s : Server) (now : Int) (ctx : Context)
    (request : Request) (c : Challenge) (cache : Cache) (hcache : s.cache = some cache)
    (hparse : codec.decode (proto.data request.Payload) = some c) (hin : c.Rand ∈ cache)
    (hsig : c.VerifySign s.secret = none)
    (htimeout : -9223372036854775808 < s.challengeTimeout
      ∧ s.challengeTimeout ≤ 9223372036854775807) :
    (c.UnixTimestamp < Unix (now - s.challengeTimeout) →
        (s.handleResourceRequest codec now ctx request).response
          = Except.ok (proto.ErrorResponse (pow.ascii "challenge was expired")))
      ∧ ((c.UnixTimestamp + 1) * 1000000000 ≤ now - s.challengeTimeout →
        (s.handleResourceRequest codec now ctx request).response
          = Except.ok (proto.ErrorResponse (pow.ascii "challenge was expired")))
      ∧ ((s.handleResourceRequest codec now ctx request).invoked = true →
        now - c.UnixTimestamp * 1000000000 < s.challengeTimeout + 1000000000) := by
  have hcut := cutoff_eq s now htimeout
  have hexp : c.UnixTimestamp < Unix (now - s.challengeTimeout) →
      (s.handleResourceRequest codec now ctx request).response
        = Except.ok (proto.ErrorResponse (pow.ascii "challenge was expired")) := by
    intro hlt
    simp [Server.handleResourceRequest, hparse, hcache, Cache.Get_eq_true.mpr hin, hsig, hcut, hlt,
      errChallengeWasExpired]
  refine ⟨hexp, ?_, ?_⟩
  · intro hle
    apply hexp
    unfold Unix
    omega
  · intro hinv
    by_cases hlt : c.UnixTimestamp < Unix (now - s.challengeTimeout)
    · simp [Server.handleResourceRequest, hparse, hcache, Cache.Get_eq_true.mpr hin, hsig,
        hcut, hlt] at hinv
    · unfold Unix at hlt
      omega

/-- C20, witness: the solved challenge of second 100 checked at instant 102 s with timeout
400 ms. -/
theorem freshness_whole_seconds_witness :
    ((exampleServer [pow.testRand]).handleResourceRequest (codecOf solved) 102000000000
        pow.background (resourceRequest 0)).response
      = Except.ok (proto.ErrorResponse (pow.ascii "challenge was expired")) :=
  (freshness_whole_seconds (codecOf solved) (exampleServer [pow.testRand]) 102000000000
    pow.background (resourceRequest 0) solved [pow.testRand] rfl rfl (by decide)
    (by decide) (by decide)).1 (by decide)

/-! ## Claims on deadlines, issuing and registration -/

theorem append_ne_of_head (a x b : List Byte) (ha : a ≠ []) (h : a.head? ≠ b.head?) :
    a ++ x ≠ b := by
  intro heq
  apply h
  rw [← heq]
  cases a with
  | nil => exact absurd rfl ha
  | cons y ys => rfl

theorem ErrorResponse_inj {a b : List Byte}
    (h : (Except.ok (proto.ErrorResponse a) : Except InternalError Response)
      = Except.ok (proto.ErrorResponse b)) : a = b := by
  simpa [proto.ErrorResponse, proto.MakeResponse] using h

/-- A request whose rand passes the cache check is not answered `challenge not found` by the
server. -/
theorem not_answeredNotFound (codec : Codec) (s : Server) (now : Int) (ctx : Context)
    (request : Request) (c : Challenge)
    (hparse : codec.decode (proto.data request.Payload) = some c)
    (hin : ∀ cache, s.cache = some cache → c.Rand ∈ cache) :
    ¬ (s.handleResourceRequest codec now ctx request).answeredNotFound := by
  have hfound : (match s.cache with
      | some cache => cache.Get c.Rand
      | none => true) = true := by
    cases hc : s.cache with
    | none => rfl
    | some cache => exact Cache.Get_eq_true.mpr (hin cache hc)
  unfold ResourceResult.answeredNotFound
  rintro ⟨hinv, hresp⟩
  cases hsig : c.VerifySign s.secret with
  | some e =>
    simp only [Server.handleResourceRequest, hparse, hfound, hsig] at hresp
    exact append_ne_of_head _ _ _ (by decide) (by decide) (ErrorResponse_inj hresp)
  | none =>
    by_cases hexp : c.UnixTimestamp < Unix (Time.Add now (negDuration s.challengeTimeout))
    · simp only [Server.handleResourceRequest, hparse, hfound, hsig, hexp] at hresp
      exact absurd (ErrorResponse_inj hresp) (by decide)
    cases hnonce : c.VerifyNonce.1 with
    | some e =>
      simp only [Server.handleResourceRequest, hparse, hfound, hsig, hexp, hnonce] at hresp
      exact append_ne_of_head _ _ _ (by decide) (by decide) (ErrorResponse_inj hresp)
    | none =>
      cases hh : s.handlers request.ResourceID with
      | none =>
        simp only [Server.handleResourceRequest, hparse, hfound, hsig, hexp, hnonce, hh]
          at hresp
        exact absurd (ErrorResponse_inj hresp) (by decide)
      | some h =>
        cases hrun : h ctx <;>
          simp [Server.handleResourceRequest, hparse, hfound, hsig, hexp, hnonce, hh, hrun]
            at hinv

/-- C21, the code at a failing input: with write timeout 500 ms, `writeResponse` called at
instant 100 ns on a connection with read deadline 7 and no write deadline leaves the write
deadline unset and moves the read deadline to `now + write_timeout`, `setWriteDeadline`
calling `SetReadDeadline`; the response is then written. -/
theorem writeResponse_sets_read_deadline :
    (exampleServer []).writeTimeout = 500000000
      ∧ ((exampleServer []).writeResponse 100 (fun _ => (1, none))
          { readDeadline := some 7, writeDeadline := none } (proto.OkResponse none)).1
        = { readDeadline := some 500000100, writeDeadline := none }
      ∧ ((exampleServer []).writeResponse 100 (fun _ => (1, none))
          { readDeadline := some 7, writeDeadline := none } (proto.OkResponse none)).2.calls
        = [[0, 0, 0, 0, 0]] := by
  decide

theorem length_fill (k : Nat) (written : List Byte) : (proto.fill k written).length = k := by
  simp [proto.fill]

/-- C22: whenever `handleChallengeRequest` succeeds, its response has status OK and its payload
is the JSON of a challenge `c` with `challenge_rand_bytes_count` bytes of rand, the configured
difficulty, the current time in seconds as unix, nonce 0 and a signature that passes
`VerifySign(secret)`; on a server with a cache `c.rand` is in the cache afterwards; and a
following Resource request carrying a challenge with that rand, processed on the cache left
behind, is not answered `challenge not found` by the server. -/
theorem handleChallengeRequest_issues (codec : Codec) (s : Server)
    (random : Option (List Byte)) (now : Int) (setOk : Bool) (resp : Response)
    (cache' : Option Cache)
    (h : s.handleChallengeRequest codec random now setOk
      = some { response := Except.ok resp, cache := cache' }) :
    ∃ c : Challenge, resp = proto.OkResponse (some (codec.Marshal c))
      ∧ resp.Status = proto.StatusOK
      ∧ (c.Rand.length : Int) = s.challengeRandBytesCount
      ∧ c.Difficulty = s.powDifficulty
      ∧ c.UnixTimestamp = Unix now
      ∧ c.Nonce = 0
      ∧ c.VerifySign s.secret = none
      ∧ (∀ cache, s.cache = some cache → ∃ cache1, cache' = some cache1 ∧ c.Rand ∈ cache1)
      ∧ (∀ (now' : Int) (ctx : Context) (request : Request) (c' : Challenge),
          codec.decode (proto.data request.Payload) = some c' → c'.Rand = c.Rand →
          ¬ ({ s with cache := cache' }.handleResourceRequest codec now' ctx
              request).answeredNotFound) := by
  unfold Server.handleChallengeRequest at h
  by_cases hneg : s.challengeRandBytesCount < 0
  · rw [if_pos hneg] at h
    exact absurd h (by simp)
  rw [if_neg hneg] at h
  cases hr : random with
  | none =>
    rw [hr] at h
    simp at h
  | some written =>
    rw [hr] at h
    have hsign : (pow.NewChallenge (proto.fill s.challengeRandBytesCount.toNat written)
        s.powDifficulty (Unix now) s.secret).VerifySign s.secret = none := by
      simp [Challenge.VerifySign, pow.NewChallenge, Challenge.sig,
        Challenge.buildHashingBytes]
    have hlen : (((pow.NewChallenge (proto.fill s.challengeRandBytesCount.toNat written)
        s.powDifficulty (Unix now) s.secret).Rand.length : Nat) : Int)
        = s.challengeRandBytesCount := by
      simp only [pow.NewChallenge, length_fill]
      omega
    refine ⟨pow.NewChallenge (proto.fill s.challengeRandBytesCount.toNat written)
      s.powDifficulty (Unix now) s.secret, ?_⟩
    cases hc : s.cache with
    | none =>
      rw [hc] at h
      simp only [Option.some.injEq, ChallengeResult.mk.injEq, Except.ok.injEq] at h
      obtain ⟨h1, h2⟩ := h
      refine ⟨h1.symm, by rw [← h1]; rfl, hlen, rfl, rfl, rfl, hsign, by simp, ?_⟩
      intro now' ctx request c' hparse _
      apply not_answeredNotFound _ _ _ _ _ c' hparse
      intro cache hcache
      rw [← h2] at hcache
      simp at hcache
    | some cache0 =>
      rw [hc] at h
      cases setOk with
      | false => simp at h
      | true =>
      simp only [Bool.true_eq_false, if_false, Option.some.injEq, ChallengeResult.mk.injEq,
        Except.ok.injEq] at h
      obtain ⟨h1, h2⟩ := h
      refine ⟨h1.symm, by rw [← h1]; rfl, hlen, rfl, rfl, rfl, hsign, ?_, ?_⟩
      · intro cache _
        exact ⟨_, h2.symm, by simp [Cache.Set, pow.NewChallenge]⟩
      · intro now' ctx request c' hparse hrand
        apply not_answeredNotFound _ _ _ _ _ c' hparse
        intro cache hcache
        rw [← h2] at hcache
        simp only [Option.some.injEq] at hcache
        rw [← hcache, hrand]
        simp [Cache.Set, pow.NewChallenge]

/-- C22, witness: the example server with an empty cache issues a challenge at instant
100.2 s from 8 random bytes. -/
theorem handleChallengeRequest_issues_witness :
    (exampleServer []).handleChallengeRequest (codecOf solved)
        (some [1, 2, 3, 4, 5, 6, 7, 8]) 100200000000 true
      = some { response := Except.ok (proto.OkResponse (some ((codecOf solved).Marshal
          (pow.NewChallenge [1, 2, 3, 4, 5, 6, 7, 8] 3 100 pow.validSecret)))),
               cache := some [[1, 2, 3, 4, 5, 6, 7, 8]] }
      ∧ ∃ c : Challenge, (c.Rand.length : Int) = 8 ∧ c.UnixTimestamp = 100 ∧ c.Nonce = 0
        ∧ c.VerifySign pow.validSecret = none
        ∧ ∃ cache1, some [[1, 2, 3, 4, 5, 6, 7, 8]] = some cache1 ∧ c.Rand ∈ cache1 :=
  have h : (exampleServer []).handleChallengeRequest (codecOf solved)
      (some [1, 2, 3, 4, 5, 6, 7, 8]) 100200000000 true
      = some { response := Except.ok (proto.OkResponse (some ((codecOf solved).Marshal
          (pow.NewChallenge [1, 2, 3, 4, 5, 6, 7, 8] 3 100 pow.validSecret)))),
               cache := some [[1, 2, 3, 4, 5, 6, 7, 8]] } := rfl
  ⟨h, (handleChallengeRequest_issues (codecOf solved) (exampleServer [])
    (some [1, 2, 3, 4, 5, 6, 7, 8]) 100200000000 true _ _ h).elim
    (fun c hc => ⟨c, hc.2.2.1, hc.2.2.2.2.1, hc.2.2.2.2.2.1, hc.2.2.2.2.2.2.1,
      hc.2.2.2.2.2.2.2.1 [] rfl⟩)⟩

theorem lastWins_nil (before : ResourceIDType → Option Handler) (id : ResourceIDType) :
    lastWins before [] id = before id := rfl

theorem lastWins_cons (before : ResourceIDType → Option Handler)
    (p : ResourceIDType × Handler) (ps : List (ResourceIDType × Handler))
    (id : ResourceIDType) :
    lastWins before (p :: ps) id
      = lastWins (fun i => if i = p.1 then some p.2 else before i) ps id := by
  unfold lastWins
  by_cases hp : p.1 = id
  · have hp' : id = p.1 := hp.symm
    rw [List.filter_cons_of_pos (by simpa using hp)]
    cases hl : ps.filter (fun q => decide (q.1 = id)) with
    | nil => simp [hp']
    | cons q qs =>
      rw [List.getLast?_cons_cons]
      cases hq : (q :: qs).getLast? with
      | none => simp at hq
      | some z => rfl
  · have hp' : ¬ id = p.1 := fun h => hp h.symm
    rw [List.filter_cons_of_neg (by simpa using hp)]
    cases hl : (ps.filter (fun q => decide (q.1 = id))).getLast? with
    | none => simp [hp']
    | some q => rfl

theorem registerLoop_pairs (pairs : List (ResourceIDType × Handler)) :
    ∀ (s : Server) (index : Nat) (rest : List Arg),
      ∃ s' : Server, s.registerLoop index (pairArgs pairs ++ rest)
          = s'.registerLoop (index + 2 * pairs.length) rest
        ∧ (∀ id, s'.handlers id = lastWins s.handlers pairs id)
        ∧ s'.cache = s.cache ∧ s'.secret = s.secret := by
  induction pairs with
  | nil =>
    intro s index rest
    exact ⟨s, by simp [pairArgs], fun id => rfl, rfl, rfl⟩
  | cons p ps ih =>
    intro s index rest
    obtain ⟨s', h1, h2, h3, h4⟩ := ih (s.RegisterHandler p.1 p.2) (index + 2) rest
    refine ⟨s', ?_, ?_, h3, h4⟩
    · have hargs : pairArgs (p :: ps) ++ rest
          = Arg.resourceID p.1 :: Arg.func p.2 :: (pairArgs ps ++ rest) := by
        simp [pairArgs]
      rw [hargs, Server.registerLoop, h1]
      congr 1
      simp only [List.length_cons]
      omega
    · intro id
      rw [h2 id, lastWins_cons]
      rfl

theorem length_pairArgs (pairs : List (ResourceIDType × Handler)) :
    (pairArgs pairs).length = 2 * pairs.length := by
  induction pairs with
  | nil => rfl
  | cons p ps ih =>
    have hargs : pairArgs (p :: ps) = Arg.resourceID p.1 :: Arg.func p.2 :: pairArgs ps := by
      simp [pairArgs]
    rw [hargs]
    simp only [List.length_cons, ih]
    omega

/-- The type assertion of `RegisterHandlers` is on the unnamed function type: a handler passed
as a value of the defined type `Handler` is refused with the error of the handler position. -/
theorem registerLoop_Handler_typed (s : Server) (index : Nat) (resourceID : ResourceIDType)
    (h : Handler) (rest : List Arg) :
    s.registerLoop index (Arg.resourceID resourceID :: Arg.handler h :: rest)
      = (some (RegisterError.notHandler (index + 1)), s) := by
  simp [Server.registerLoop]

/-- C23, counterexample: on a server without handlers, `RegisterHandlers(id 0, handler, "x",
handler)` fails with an error that is not `ErrOddArguments`, after having registered the
handler for resource 0. -/
theorem RegisterHandlers_wrong_kind :
    (({ exampleServer [] with handlers := fun _ => none } : Server).RegisterHandlers
        [Arg.resourceID 0, Arg.func quoteHandler, Arg.other 7, Arg.func quoteHandler]).1
      = some (RegisterError.notResourceID 2)
    ∧ RegisterError.notResourceID 2 ≠ RegisterError.ErrOddArguments
    ∧ ((({ exampleServer [] with handlers := fun _ => none } : Server).RegisterHandlers
        [Arg.resourceID 0, Arg.func quoteHandler, Arg.other 7,
          Arg.func quoteHandler]).2.handlers 0).isSome = true
    ∧ ((({ exampleServer [] with handlers := fun _ => none } : Server)).handlers 0).isSome
      = false := by
  decide

/-- C23, amended: `RegisterHandlers` fails with `ErrOddArguments` when it is given an odd
number of arguments, and then registers nothing. For a sequence of (id, handler) pairs, each
handler passed as a value of the unnamed type `func(context.Context) ([]byte, error)` (a
function or method value or a function literal), it succeeds, and afterwards every id of the
sequence maps to the handler of its last occurrence, the other registrations being unchanged.
When, after a number of such pairs, a pair has a value that is not a `ResourceIDType` in the
id position, or a value that is neither a function nor a `ResourceIDType` in the handler
position, it fails with an error that names the position and is not `ErrOddArguments`, the
pairs before it staying registered. (A handler passed as a value of the defined type `Handler`
is outside this statement.) -/
theorem RegisterHandlers_contract (s : Server) (pairs : List (ResourceIDType × Handler)) :
    (∀ args : List Arg, args.length % 2 = 1 →
        s.RegisterHandlers args = (some RegisterError.ErrOddArguments, s))
      ∧ ((s.RegisterHandlers (pairArgs pairs)).1 = none
        ∧ ∀ id, (s.RegisterHandlers (pairArgs pairs)).2.handlers id
            = lastWins s.handlers pairs id)
      ∧ (∀ (tag : Nat) (h : Handler) (y : Arg) (rest : List Arg),
          rest.length % 2 = 0 →
          ((s.RegisterHandlers (pairArgs pairs ++ Arg.other tag :: y :: rest)).1
              = some (RegisterError.notResourceID (2 * pairs.length))
            ∧ (s.RegisterHandlers (pairArgs pairs ++ Arg.func h :: y :: rest)).1
              = some (RegisterError.notResourceID (2 * pairs.length))
            ∧ (s.RegisterHandlers (pairArgs pairs ++ Arg.handler h :: y :: rest)).1
              = some (RegisterError.notResourceID (2 * pairs.length))
            ∧ ∀ id, (s.RegisterHandlers (pairArgs pairs ++ Arg.other tag :: y :: rest)).2.handlers
                id = lastWins s.handlers pairs id))
      ∧ (∀ (r r' : ResourceIDType) (tag : Nat) (rest : List Arg),
          rest.length % 2 = 0 →
          ((s.RegisterHandlers (pairArgs pairs ++ Arg.resourceID r :: Arg.other tag :: rest)).1
              = some (RegisterError.notHandler (2 * pairs.length + 1))
            ∧ (s.RegisterHandlers
                (pairArgs pairs ++ Arg.resourceID r :: Arg.resourceID r' :: rest)).1
              = some (RegisterError.notHandler (2 * pairs.length + 1))
            ∧ ∀ id, (s.RegisterHandlers
                (pairArgs pairs ++ Arg.resourceID r :: Arg.other tag :: rest)).2.handlers id
                  = lastWins s.handlers pairs id)) := by
  have heven : ∀ (x y : Arg) (rest : List Arg), rest.length % 2 = 0 →
      ¬ (pairArgs pairs ++ x :: y :: rest).length % 2 ≠ 0 := by
    intro x y rest hr
    simp only [List.length_append, List.length_cons, length_pairArgs]
    omega
  refine ⟨?_, ?_, ?_, ?_⟩
  · intro args hodd
    unfold Server.RegisterHandlers
    rw [if_pos (by omega)]
  · obtain ⟨s', h1, h2, _, _⟩ := registerLoop_pairs pairs s 0 []
    rw [List.append_nil] at h1
    have hlen : ¬ (pairArgs pairs).length % 2 ≠ 0 := by
      rw [length_pairArgs]
      omega
    unfold Server.RegisterHandlers
    rw [if_neg hlen, h1]
    exact ⟨rfl, h2⟩
  · intro tag h y rest hr
    refine ⟨?_, ?_, ?_, ?_⟩
    · obtain ⟨s', h1, _, _, _⟩ := registerLoop_pairs pairs s 0 (Arg.other tag :: y :: rest)
      unfold Server.RegisterHandlers
      rw [if_neg (heven _ _ _ hr), h1]
      simp [Server.registerLoop]
    · obtain ⟨s', h1, _, _, _⟩ := registerLoop_pairs pairs s 0 (Arg.func h :: y :: rest)
      unfold Server.RegisterHandlers
      rw [if_neg (heven _ _ _ hr), h1]
      simp [Server.registerLoop]
    · obtain ⟨s', h1, _, _, _⟩ := registerLoop_pairs pairs s 0 (Arg.handler h :: y :: rest)
      unfold Server.RegisterHandlers
      rw [if_neg (heven _ _ _ hr), h1]
      simp [Server.registerLoop]
    · intro id
      obtain ⟨s', h1, h2, _, _⟩ := registerLoop_pairs pairs s 0 (Arg.other tag :: y :: rest)
      unfold Server.RegisterHandlers
      rw [if_neg (heven _ _ _ hr), h1]
      simpa [Server.registerLoop] using h2 id
  · intro r r' tag rest hr
    refine ⟨?_, ?_, ?_⟩
    · obtain ⟨s', h1, _, _, _⟩ :=
        registerLoop_pairs pairs s 0 (Arg.resourceID r :: Arg.other tag :: rest)
      unfold Server.RegisterHandlers
      rw [if_neg (heven _ _ _ hr), h1]
      simp [Server.registerLoop]
    · obtain ⟨s', h1, _, _, _⟩ :=
        registerLoop_pairs pairs s 0 (Arg.resourceID r :: Arg.resourceID r' :: rest)
      unfold Server.RegisterHandlers
      rw [if_neg (heven _ _ _ hr), h1]
      simp [Server.registerLoop]
    · intro id
      obtain ⟨s', h1, h2, _, _⟩ :=
        registerLoop_pairs pairs s 0 (Arg.resourceID r :: Arg.other tag :: rest)
      unfold Server.RegisterHandlers
      rw [if_neg (heven _ _ _ hr), h1]
      simpa [Server.registerLoop] using h2 id

/-- C23, witness: the registration of `cmd/server/main.go`, two pairs for the resources 0 and
1, here followed by a second handler for resource 0. -/
theorem RegisterHandlers_contract_witness :
    ((exampleServer []).RegisterHandlers
        [Arg.resourceID 0, Arg.func quoteHandler, Arg.resourceID 1, Arg.func quoteHandler,
          Arg.resourceID 0, Arg.func (fun _ => Except.ok none)]).1 = none
      ∧ ((exampleServer []).RegisterHandlers
        [Arg.resourceID 0, Arg.func quoteHandler, Arg.resourceID 1, Arg.func quoteHandler,
          Arg.resourceID 0, Arg.func (fun _ => Except.ok none)]).2.handlers 0
        = some (fun _ => Except.ok none)
      ∧ (exampleServer []).RegisterHandlers [Arg.resourceID 0]
        = (some RegisterError.ErrOddArguments, exampleServer []) :=
  have h := RegisterHandlers_contract (exampleServer [])
    [(0, quoteHandler), (1, quoteHandler), (0, fun _ => Except.ok none)]
  ⟨h.2.1.1, h.2.1.2 0, h.1 [Arg.resourceID 0] rfl⟩

/-- The cache `handleResourceRequest` leaves on a server with a cache: the entry of the
challenge's rand is gone. -/
theorem cache_after_request (codec : Codec) (s : Server) (now : Int) (ctx : Context)
    (request : Request) (c : Challenge) (cache : Cache) (hcache : s.cache = some cache)
    (hparse : codec.decode (proto.data request.Payload) = some c) :
    (s.handleResourceRequest codec now ctx request).cache
      = some (if c.Rand ∈ cache then cache.Delete c.Rand else cache) := by
  by_cases hin : c.Rand ∈ cache
  swap
  · simp [Server.handleResourceRequest, hparse, hcache, Cache.Get_eq_false.mpr hin, hin]
  rw [if_pos hin]
  cases hsig : c.VerifySign s.secret with
  | some e =>
    simp [Server.handleResourceRequest, hparse, hcache, Cache.Get_eq_true.mpr hin, hsig]
  | none =>
    by_cases hexp : c.UnixTimestamp < Unix (Time.Add now (negDuration s.challengeTimeout))
    · simp [Server.handleResourceRequest, hparse, hcache, Cache.Get_eq_true.mpr hin, hsig,
        hexp]
    cases hnonce : c.VerifyNonce.1 with
    | some e =>
      simp [Server.handleResourceRequest, hparse, hcache, Cache.Get_eq_true.mpr hin, hsig,
        hexp, hnonce]
    | none =>
      cases hh : s.handlers request.ResourceID with
      | none =>
        simp [Server.handleResourceRequest, hparse, hcache, Cache.Get_eq_true.mpr hin, hsig,
          hexp, hnonce, hh]
      | some h =>
        cases hrun : h ctx <;>
          simp [Server.handleResourceRequest, hparse, hcache, Cache.Get_eq_true.mpr hin, hsig,
            hexp, hnonce, hh, hrun]

/-- C24: a Resource request consumes the cache entry whatever its outcome. On a server with a
cache, for a payload that parses as a challenge, the rand of the challenge is absent from the
cache `handleResourceRequest` leaves, whether the request was served or rejected (unknown
rand, invalid signature, expiry, invalid nonce, missing handler); hence a request carrying a
challenge with the same rand, processed next, is answered `challenge not found`, however
well solved. -/
theorem resource_request_consumes_entry (codec : Codec) (s : Server) (now : Int)
    (ctx : Context) (request : Request) (c : Challenge) (cache : Cache)
    (hcache : s.cache = some cache)
    (hparse : codec.decode (proto.data request.Payload) = some c) :
    (∃ cache', (s.handleResourceRequest codec now ctx request).cache = some cache'
        ∧ c.Rand ∉ cache')
      ∧ ∀ (now' : Int) (ctx' : Context) (request' : Request) (c' : Challenge),
          codec.decode (proto.data request'.Payload) = some c' → c'.Rand = c.Rand →
          ({ s with cache := (s.handleResourceRequest codec now ctx request).cache
            }.handleResourceRequest codec now' ctx' request').response
            = Except.ok (proto.ErrorResponse (pow.ascii "challenge not found")) := by
  have hout : c.Rand ∉ (if c.Rand ∈ cache then cache.Delete c.Rand else cache) := by
    by_cases hin : c.Rand ∈ cache
    · rw [if_pos hin]
      exact Cache.not_mem_Delete cache c.Rand
    · rw [if_neg hin]
      exact hin
  rw [cache_after_request codec s now ctx request c cache hcache hparse]
  refine ⟨⟨_, rfl, hout⟩, ?_⟩
  intro now' ctx' request' c' hparse' hrand
  have hget : Cache.Get (if c.Rand ∈ cache then cache.Delete c.Rand else cache) c'.Rand
      = false := by
    rw [hrand]
    exact Cache.Get_eq_false.mpr hout
  simp [Server.handleResourceRequest, hparse', hget, errChallengeNotFound]

/-- C24, witness: the challenge presented with the wrong nonce 1 is rejected, and the solved
challenge presented next is answered `challenge not found`. -/
theorem resource_request_consumes_entry_witness :
    ((exampleServer [pow.testRand]).handleResourceRequest
        (codecOf { solved with Nonce := 1 }) 100200000000 pow.background
        (resourceRequest 0)).response
        = Except.ok (proto.ErrorResponse (pow.ascii "invalid nonce: invalid nonce: 1"))
      ∧ ({ exampleServer [pow.testRand] with
            cache := ((exampleServer [pow.testRand]).handleResourceRequest
              (codecOf { solved with Nonce := 1 }) 100200000000 pow.background
              (resourceRequest 0)).cache
          }.handleResourceRequest (codecOf { solved with Nonce := 1 }) 100300000000
            pow.background (resourceRequest 0)).response
        = Except.ok (proto.ErrorResponse (pow.ascii "challenge not found")) :=
  ⟨by decide,
    (resource_request_consumes_entry (codecOf { solved with Nonce := 1 })
      (exampleServer [pow.testRand]) 100200000000 pow.background (resourceRequest 0)
      { solved with Nonce := 1 } [pow.testRand] rfl rfl).2 100300000000 pow.background
      (resourceRequest 0) { solved with Nonce := 1 } rfl rfl⟩

/-- C25: the freshness check compares whole seconds. With instants and durations in
nanoseconds, for a request whose rand is in the cache and whose signature verifies, a
challenge issued at instant `t` (unix is the second of `t`) and checked at instant `now` with
timeout `T` is answered `challenge was expired` exactly when the second of `t` is before the
second of `now - T`; hence never when `now - t <= T` and always when `now - t >= T + 1 s`,
while every elapsed time strictly between `T` and `T + 1 s` occurs with both outcomes. The
timeout `T` is any `time.Duration` but the least `int64`, which covers every `T >= 0`. -/
theorem freshness_compares_seconds (codec : Codec) (s : Server) (t now : Int) (ctx : Context)
    (request : Request) (c : Challenge) (cache : Cache) (hcache : s.cache = some cache)
    (hparse : codec.decode (proto.data request.Payload) = some c) (hin : c.Rand ∈ cache)
    (hsig : c.VerifySign s.secret = none) (hissue : c.UnixTimestamp = Unix t)
    (htimeout : -9223372036854775808 < s.challengeTimeout
      ∧ s.challengeTimeout ≤ 9223372036854775807) :
    ((s.handleResourceRequest codec now ctx request).answeredExpired
        ↔ Unix t < Unix (now - s.challengeTimeout))
      ∧ (now - t ≤ s.challengeTimeout →
        ¬ (s.handleResourceRequest codec now ctx request).answeredExpired)
      ∧ (s.challengeTimeout + 1000000000 ≤ now - t →
        (s.handleResourceRequest codec now ctx request).answeredExpired)
      ∧ (∀ e : Int, s.challengeTimeout < e → e < s.challengeTimeout + 1000000000 →
        ∃ t1 t2 : Int, ¬ Unix t1 < Unix (t1 + e - s.challengeTimeout)
          ∧ Unix t2 < Unix (t2 + e - s.challengeTimeout)) := by
  have hcut := cutoff_eq s now htimeout
  have hiff : (s.handleResourceRequest codec now ctx request).answeredExpired
      ↔ Unix t < Unix (now - s.challengeTimeout) := by
    rw [← hissue]
    unfold ResourceResult.answeredExpired
    constructor
    · rintro ⟨hinv, hresp⟩
      by_contra hexp
      cases hnonce : c.VerifyNonce.1 with
      | some e =>
        simp only [Server.handleResourceRequest, hparse, hcache, Cache.Get_eq_true.mpr hin,
          hsig, hcut, hexp, hnonce] at hresp
        exact append_ne_of_head _ _ _ (by decide) (by decide) (ErrorResponse_inj hresp)
      | none =>
        cases hh : s.handlers request.ResourceID with
        | none =>
          simp only [Server.handleResourceRequest, hparse, hcache, Cache.Get_eq_true.mpr hin,
            hsig, hcut, hexp, hnonce, hh] at hresp
          exact absurd (ErrorResponse_inj hresp) (by decide)
        | some h =>
          cases hrun : h ctx <;>
            simp [Server.handleResourceRequest, hparse, hcache, Cache.Get_eq_true.mpr hin,
              hsig, hcut, hexp, hnonce, hh, hrun] at hinv
    · intro hexp
      simp [Server.handleResourceRequest, hparse, hcache, Cache.Get_eq_true.mpr hin, hsig,
        hcut, hexp]
  refine ⟨hiff, ?_, ?_, ?_⟩
  · intro hle
    rw [hiff]
    unfold Unix
    omega
  · intro hge
    rw [hiff]
    unfold Unix
    omega
  · intro e h1 h2
    refine ⟨0, 999999999, ?_, ?_⟩
    · unfold Unix
      omega
    · unfold Unix
      omega

/-- C25, witness: the solved challenge issued at instant 100.9 s (second 100), with timeout
400 ms: checked 300 ms later it is served, checked 1.5 s later it is answered `challenge was
expired`. -/
theorem freshness_compares_seconds_witness :
    ¬ ((exampleServer [pow.testRand]).handleResourceRequest (codecOf solved) 101200000000
        pow.background (resourceRequest 0)).answeredExpired
      ∧ ((exampleServer [pow.testRand]).handleResourceRequest (codecOf solved) 102400000000
        pow.background (resourceRequest 0)).answeredExpired :=
  ⟨(freshness_compares_seconds (codecOf solved) (exampleServer [pow.testRand]) 100900000000
      101200000000 pow.background (resourceRequest 0) solved [pow.testRand] rfl rfl (by decide)
      (by decide) (by decide) (by decide)).2.1 (by decide),
    (freshness_compares_seconds (codecOf solved) (exampleServer [pow.testRand]) 100900000000
      102400000000 pow.background (resourceRequest 0) solved [pow.testRand] rfl rfl (by decide)
      (by decide) (by decide) (by decide)).2.2.1 (by decide)⟩

end server

/-! # Claims on the client driver -/

namespace client

/-- C28, the code at a failing input: for the request `doChallenge` builds for `CurrentTime`
(resource id 1) `makeRequest` returns a wire request with the right type and resource id 0,
the field `ResourceID` never being copied; `CurrentTime` and `Quote` put the same resource id
on the wire. -/
theorem makeRequest_drops_resource_id :
    (resourceRequestOf TimeResourceID (pow.literal pow.testRand 2 3)).makeRequest
        (fun _ => some (pow.ascii "c"))
      = Except.ok { Typ := proto.RequestTypeResource, ResourceID := 0,
                    Payload := some (pow.ascii "c") }
    ∧ (resourceRequestOf TimeResourceID (pow.literal pow.testRand 2 3)).ResourceID = 1
    ∧ (resourceRequestOf TimeResourceID (pow.literal pow.testRand 2 3)).makeRequest
        (fun _ => some (pow.ascii "c"))
      = (resourceRequestOf QuoteResourceID (pow.literal pow.testRand 2 3)).makeRequest
        (fun _ => some (pow.ascii "c")) := by
  decide

end client
